import Mathlib

/-!
# Verification of the Lite-ORM query builder (`utils/queryBuilder.js`)

This file gives a shallow embedding of the fluent SQL query builder:
its query AST, the builder operations that construct the AST, the SQL
compiler (`buildSql` / `buildWhere`), the relation hydrator
(`#loadRelations`), and the chunk driver (`#runChunkLoop` / `chunk`).
JavaScript values reaching the builder are modelled by `Val`; fallible
operations return `Except String`; the recursive compiler is written
with an explicit fuel argument so that it is a total function (the fuel
only has to dominate the subquery nesting depth for evaluation to
succeed, and all theorems quantify over the fuel).
-/

set_option maxHeartbeats 1000000
set_option maxRecDepth 100000

namespace LiteORM

/-- JavaScript values that flow through the builder: `null`/`undefined`
collapse to `vNull` (the builder treats them alike via `!= null` /
`=== null` checks on the paths we model), numbers are `vInt`, strings
`vStr`, and `RawSql` instances are `vRaw` carrying their `.value`. -/
inductive Val where
  | vNull : Val
  | vInt : Int → Val
  | vStr : String → Val
  | vRaw : String → Val
deriving DecidableEq, Repr

/-- `RawSql` test: mirrors `value instanceof RawSql`. -/
def Val.isRaw : Val → Bool
  | .vRaw _ => true
  | _ => false

/-- The `.value` carried by a `RawSql`; unused on other values. -/
def Val.rawValue : Val → String
  | .vRaw s => s
  | _ => ""

/-- JavaScript string coercion used when a value becomes an object key
(`groupedRelated[fk]`, `mappedRelated[localKeyValue]`, and the
composite `join('|')` keys). `null` and `undefined` rows collapse to
one sentinel key, matching `String(null)`/`String(undefined)` never
colliding with each other in a way the hydrator distinguishes on the
paths we model (both fail the `!= null` filters). -/
def Val.jsKey : Val → String
  | .vNull => "null"
  | .vInt n => toString n
  | .vStr s => s
  | .vRaw _ => "[object Object]"

/-- A key specification: `foreignKey` / `localKey` arguments are either
a single column name or an array of column names (composite keys). -/
inductive KeyRef where
  | single : String → KeyRef
  | comp : List String → KeyRef
deriving DecidableEq, Repr

/-- A registered eager–load directive (`#query.with` entry), as pushed
by `withMany` / `withOne`.  The optional filter callback only runs
against the relation sub-builder during hydration; the hydrator model
receives the fetched child rows directly, so the callback is not stored
here. -/
structure RelationSpec where
  rtype : String          -- 'hasMany' | 'hasOne'
  relationName : String
  relatedTable : String
  foreignKey : KeyRef
  localKey : KeyRef
deriving DecidableEq, Repr

mutual

/-- A registered aggregate directive (`#query.aggregates` entry), as
pushed by `#registerAggregate`.  The source stores an opaque filter
callback that, when the aggregate subquery is materialised, is invoked
on the sub-builder and pushes additional predicate nodes (spec §4.3);
`extraWhere` is the list of nodes such a callback pushes. -/
inductive AggregateSpec where
  | mk (atype : String) (relatedTable : String) (foreignKey : KeyRef)
       (localKey : KeyRef) (column : String) (aliasS : String)
       (extraWhere : List WhereCond)

/-- One entry of the `#query.where` array.  `cond` is the plain
condition object `{column, operator, value, type}`; `existsCond`'s
`etype` ranges over `EXISTS | OR_EXISTS | NOT_EXISTS | OR_NOT_EXISTS`;
`aggSub` is the `AGGREGATE_SUBQUERY` node; `rawCond` is the internal
`RAW` node used by the hydrator for composite-key tuple matching. -/
inductive WhereCond where
  | cond (column : String) (operator : String) (value : Val) (ctype : String)
  | condList (column : String) (operator : String) (values : List Val) (ctype : String)
  | groupStart (groupType : String)
  | groupEnd
  | existsCond (etype : String) (sub : Query)
  | aggSub (sub : Query) (operator : String) (value : Val) (logicType : String)
  | rawCond (sqlFrag : String) (values : List Val)

/-- The builder's `#query` state object.  Field order and contents
mirror `#reset`.  `values` are IN-list / BETWEEN payloads inside
`WhereCond`; here `valuesV` is the bulk-insert row list.  Join entries
are `(table, condition, type)`; having entries are
`(column, operator, value, type)`; orderBy entries are
`(column, direction)`. -/
inductive Query where
  | mk (qtype : Option String) (table : Option String)
       (selectS : String) (distinctB : Bool)
       (joins : List (String × String × String))
       (whereL : List WhereCond)
       (groupByL : List String)
       (havingL : List (String × String × Val × String))
       (orderByL : List (String × String))
       (limitV : Option Int) (offsetV : Option Int)
       (setV : Option (List (String × Val)))
       (valuesV : Option (List (List (String × Val))))
       (upsertUpdateV : Option (List (String × Val)))
       (withL : List RelationSpec)
       (aggregatesL : List AggregateSpec)
       (autoAdded : List String)

end

namespace Query

def qtype : Query → Option String | .mk t _ _ _ _ _ _ _ _ _ _ _ _ _ _ _ _ => t
def table : Query → Option String | .mk _ t _ _ _ _ _ _ _ _ _ _ _ _ _ _ _ => t
def selectS : Query → String | .mk _ _ s _ _ _ _ _ _ _ _ _ _ _ _ _ _ => s
def distinctB : Query → Bool | .mk _ _ _ d _ _ _ _ _ _ _ _ _ _ _ _ _ => d
def joins : Query → List (String × String × String)
  | .mk _ _ _ _ j _ _ _ _ _ _ _ _ _ _ _ _ => j
def whereL : Query → List WhereCond | .mk _ _ _ _ _ w _ _ _ _ _ _ _ _ _ _ _ => w
def groupByL : Query → List String | .mk _ _ _ _ _ _ g _ _ _ _ _ _ _ _ _ _ => g
def havingL : Query → List (String × String × Val × String)
  | .mk _ _ _ _ _ _ _ h _ _ _ _ _ _ _ _ _ => h
def orderByL : Query → List (String × String)
  | .mk _ _ _ _ _ _ _ _ o _ _ _ _ _ _ _ _ => o
def limitV : Query → Option Int | .mk _ _ _ _ _ _ _ _ _ l _ _ _ _ _ _ _ => l
def offsetV : Query → Option Int | .mk _ _ _ _ _ _ _ _ _ _ o _ _ _ _ _ _ => o
def setV : Query → Option (List (String × Val))
  | .mk _ _ _ _ _ _ _ _ _ _ _ s _ _ _ _ _ => s
def valuesV : Query → Option (List (List (String × Val)))
  | .mk _ _ _ _ _ _ _ _ _ _ _ _ v _ _ _ _ => v
def upsertUpdateV : Query → Option (List (String × Val))
  | .mk _ _ _ _ _ _ _ _ _ _ _ _ _ u _ _ _ => u
def withL : Query → List RelationSpec | .mk _ _ _ _ _ _ _ _ _ _ _ _ _ _ w _ _ => w
def aggregatesL : Query → List AggregateSpec
  | .mk _ _ _ _ _ _ _ _ _ _ _ _ _ _ _ a _ => a
def autoAdded : Query → List String | .mk _ _ _ _ _ _ _ _ _ _ _ _ _ _ _ _ a => a

end Query

/-- The initial / reset AST produced by `#reset`: `type: null,
table: null, select: '*', distinct: false`, all lists empty, `limit`,
`offset`, `set`, `values`, `upsertUpdate` null. -/
def resetQuery : Query :=
  .mk none none "*" false [] [] [] [] [] none none none none none [] [] []

/-- Append a node to `#query.where` (the `this.#query.where.push(...)`
idiom). -/
def pushWhere (c : WhereCond) : Query → Query
  | .mk t tb s d j w g h o l of st v u wi ag aa =>
    .mk t tb s d j (w ++ [c]) g h o l of st v u wi ag aa

/-- Replace `#query.select`. -/
def setSelect (s : String) : Query → Query
  | .mk t tb _ d j w g h o l of st v u wi ag aa =>
    .mk t tb s d j w g h o l of st v u wi ag aa

/-- Replace `#query.table`. -/
def setTable (tb : String) : Query → Query
  | .mk t _ s d j w g h o l of st v u wi ag aa =>
    .mk t (some tb) s d j w g h o l of st v u wi ag aa

/-- Replace `#query.type`. -/
def setType (ty : String) : Query → Query
  | .mk _ tb s d j w g h o l of st v u wi ag aa =>
    .mk (some ty) tb s d j w g h o l of st v u wi ag aa

namespace AggregateSpec

def atype : AggregateSpec → String | .mk a _ _ _ _ _ _ => a
def relatedTable : AggregateSpec → String | .mk _ t _ _ _ _ _ => t
def foreignKey : AggregateSpec → KeyRef | .mk _ _ f _ _ _ _ => f
def localKey : AggregateSpec → KeyRef | .mk _ _ _ l _ _ _ => l
def column : AggregateSpec → String | .mk _ _ _ _ c _ _ => c
def aliasS : AggregateSpec → String | .mk _ _ _ _ _ a _ => a
def extraWhere : AggregateSpec → List WhereCond | .mk _ _ _ _ _ _ e => e

end AggregateSpec

/-- Set `#query.distinct`. -/
def setDistinct (b : Bool) : Query → Query
  | .mk t tb s d j w g h o l of st v u wi ag aa =>
    .mk t tb s (d || b) j w g h o l of st v u wi ag aa

/-- Append a join entry `{table, condition, type}`. -/
def pushJoin (e : String × String × String) : Query → Query
  | .mk t tb s d j w g h o l of st v u wi ag aa =>
    .mk t tb s d (j ++ [e]) w g h o l of st v u wi ag aa

/-- Replace `#query.set`. -/
def setSet (sv : Option (List (String × Val))) : Query → Query
  | .mk t tb s d j w g h o l of _ v u wi ag aa =>
    .mk t tb s d j w g h o l of sv v u wi ag aa

/-- Replace `#query.upsertUpdate`. -/
def setUpsertUpdate (uv : Option (List (String × Val))) : Query → Query
  | .mk t tb s d j w g h o l of st v _ wi ag aa =>
    .mk t tb s d j w g h o l of st v uv wi ag aa

/-- Append a relation spec to `#query.with`. -/
def pushWith (r : RelationSpec) : Query → Query
  | .mk t tb s d j w g h o l of st v u wi ag aa =>
    .mk t tb s d j w g h o l of st v u (wi ++ [r]) ag aa

/-- Append an aggregate spec to `#query.aggregates`. -/
def pushAggregate (a : AggregateSpec) : Query → Query
  | .mk t tb s d j w g h o l of st v u wi ag aa =>
    .mk t tb s d j w g h o l of st v u wi (ag ++ [a]) aa

/-- Append a list of where nodes in order (a callback pushing several
conditions onto the same builder). -/
def appendWhereL (cs : List WhereCond) (q : Query) : Query :=
  cs.foldl (fun acc c => pushWhere c acc) q

/-! ## Identifier validation (`#validateColumnName`, `from`) -/

/-- `String.prototype.trim()`. -/
def jsTrim (s : String) : String :=
  ⟨((s.data.dropWhile Char.isWhitespace).reverse.dropWhile Char.isWhitespace).reverse⟩

/-- `String.prototype.split(sep)` with a one-character separator, on
the character list. -/
def splitCharGo (sep : Char) : List Char → List (List Char)
  | [] => [[]]
  | c :: rest =>
    let r := splitCharGo sep rest
    if c = sep then [] :: r
    else
      match r with
      | [] => [[c]]
      | h :: t => (c :: h) :: t

/-- `String.prototype.split(sep)` with a one-character separator. -/
def splitChar (sep : Char) (s : String) : List String :=
  (splitCharGo sep s.data).map (fun l => ⟨l⟩)

/-- `String.prototype.toLowerCase()` (ASCII). -/
def jsToLower (s : String) : String :=
  ⟨s.data.map Char.toLower⟩

/-- `String.prototype.startsWith(pre)`. -/
def jsStartsWith (s pre : String) : Bool :=
  pre.data.isPrefixOf s.data

/-- Character class of the validation regex `/^[a-zA-Z0-9_.`]+$/`. -/
def isIdentChar (c : Char) : Bool :=
  c.isAlpha || c.isDigit || c = '_' || c = '.' || c = '`'

/-- The regex test `/^[a-zA-Z0-9_.`]+$/.test(s)`. -/
def identRegexTest (s : String) : Bool :=
  s.length > 0 && s.data.all isIdentChar

/-- `#validateColumnName(column, context)`. -/
def validateColumnName (column context : String) : Except String Unit :=
  if (jsTrim column).length = 0 then
    .error (context ++ " column name must be a non-empty string")
  else if !identRegexTest column then
    .error ("Invalid " ++ context ++ " column name")
  else
    .ok ()

/-- `from(table)`: table-name validation, then store the table. -/
def fromTable (q : Query) (table : String) : Except String Query :=
  if (jsTrim table).length = 0 then
    .error "Table name must be a non-empty string"
  else if !identRegexTest table then
    .error "Invalid table name format"
  else
    .ok (setTable table q)

/-- The WHERE operator whitelist of `where` / `orWhere`. -/
def whereValidOperators : List String :=
  ["=", "!=", "<>", ">", "<", ">=", "<=", "LIKE", "NOT LIKE", "IS", "IS NOT"]

/-- `#validateOperator(operator, validOperators)`; the operator slot on
the JS side may hold an arbitrary value after the two-argument
collapse, hence the `Val` argument. -/
def validateOperator (operator : Val) (valid : List String) : Except String String :=
  match operator with
  | .vStr s => if valid.contains s then .ok s else .error ("Invalid operator: " ++ s)
  | _ => .error "Invalid operator: (non-string)"

/-! ## Aggregate and EXISTS subquery construction -/

/-- `Array.prototype.join(sep)`. -/
def joinSep (sep : String) : List String → String
  | [] => ""
  | [a] => a
  | a :: rest => a ++ sep ++ joinSep sep rest

/-- JS coercion of a key reference into a template literal
(`${localKeys}` renders an array as comma-joined). -/
def KeyRef.jsString : KeyRef → String
  | .single s => s
  | .comp l => joinSep "," l

/-- Pair up foreign keys with local keys, mirroring the
`Array.isArray(foreignKey)` dispatch of `#buildAggregateSubquery` /
`#buildExistsSubquery`: a single foreign key is paired with the
(coerced) local key; composite foreign keys require an equal-length
local key tuple. -/
def corrPairs (foreignKey localKey : KeyRef) : Except String (List (String × String)) :=
  match foreignKey with
  | .single f => .ok [(f, localKey.jsString)]
  | .comp fs =>
    let ls := match localKey with
      | .comp l => l
      | .single s => [s]
    if fs.length ≠ ls.length then
      .error "Foreign keys and local keys must have the same length for composite keys"
    else
      .ok (fs.zip ls)

/-- Push one correlation condition per key pair onto a fresh
sub-builder:
`subQuery.where(relatedTable.fk, new RawSql(outerTable.lk))`.
The fresh sub-builder has no registered aggregates, so its `where`
reduces to column validation, the two-argument collapse to `=`, and a
plain push. -/
def mkCorrConds (relatedTable outerTable : String) :
    List (String × String) → Except String (List WhereCond)
  | [] => .ok []
  | (f, l) :: rest => do
    let col := relatedTable ++ "." ++ f
    let _ ← validateColumnName col "WHERE"
    let rest' ← mkCorrConds relatedTable outerTable rest
    .ok (.cond col "=" (.vRaw (outerTable ++ "." ++ l)) "AND" :: rest')

/-- The aggregate function text:
`agg.type === 'COUNT' ? 'COUNT(*)' : `${agg.type}(${agg.column})``. -/
def aggFunc (spec : AggregateSpec) : String :=
  if spec.atype = "COUNT" then "COUNT(*)" else spec.atype ++ "(" ++ spec.column ++ ")"

/-- Construct the scalar subquery for an aggregate spec (shared by
`#buildAggregateSubquery` and the projection-expansion code in
`buildSql`): fresh builder, `from(relatedTable)`, one correlation
condition per key pair, the callback's extra predicates, then
`select := aggFunc`, `type := 'SELECT'`.  `outerTable` is
`this.#query.table` (the JS template renders `null` when unset). -/
def aggSubQuery (outerTable : Option String) (spec : AggregateSpec) :
    Except String Query := do
  let base ← fromTable resetQuery spec.relatedTable
  let pairs ← corrPairs spec.foreignKey spec.localKey
  let tblStr := match outerTable with
    | some t => t
    | none => "null"
  let conds ← mkCorrConds spec.relatedTable tblStr pairs
  let sub := appendWhereL (conds ++ spec.extraWhere) base
  .ok (setType "SELECT" (setSelect (aggFunc spec) sub))

/-- `#buildAggregateSubquery(aggregate, operator, value, logicType)`:
returns the `AGGREGATE_SUBQUERY` where node. -/
def buildAggregateSubquery (q : Query) (spec : AggregateSpec)
    (operator : String) (value : Val) (logicType : String) :
    Except String WhereCond := do
  let sub ← aggSubQuery q.table spec
  .ok (.aggSub sub operator value logicType)

/-- `#buildExistsSubquery(relatedTable, foreignKey, localKey, type,
callback)`: sub-builder with `select('1').from(relatedTable)`,
correlation conditions, and the callback's extra predicates. -/
def buildExistsSubquery (q : Query) (relatedTable : String)
    (foreignKey localKey : KeyRef) (etype : String)
    (extraWhere : List WhereCond) : Except String WhereCond := do
  let base ← fromTable (setSelect "1" (setType "SELECT" resetQuery)) relatedTable
  let pairs ← corrPairs foreignKey localKey
  let tblStr := match q.table with
    | some t => t
    | none => "null"
  let conds ← mkCorrConds relatedTable tblStr pairs
  let sub := appendWhereL (conds ++ extraWhere) base
  .ok (.existsCond etype sub)

/-! ## Predicate DSL -/

/-- `#addWhereCondition(column, operator, value, logicType)`: aggregate
alias auto-detection, then push. -/
def addWhereCondition (q : Query) (column operator : String) (value : Val)
    (logicType : String) : Except String Query :=
  match q.aggregatesL.find? (fun a => a.aliasS = column) with
  | some agg => do
    let node ← buildAggregateSubquery q agg operator value logicType
    .ok (pushWhere node q)
  | none => .ok (pushWhere (.cond column operator value logicType) q)

/-- Common body of `where` / `orWhere`: validation, the two-argument
collapse (`if (value === null && operator !== null) { value = operator;
operator = '='; }`), operator validation, then `#addWhereCondition`. -/
def whereArgs (q : Query) (column : String) (operator0 value0 : Val)
    (logicType : String) : Except String Query := do
  let _ ← validateColumnName column "WHERE"
  let (operator, value) :=
    if value0 = .vNull ∧ operator0 ≠ .vNull then (Val.vStr "=", operator0)
    else (operator0, value0)
  let opStr ← validateOperator operator whereValidOperators
  addWhereCondition q column opStr value logicType

/-- Three-argument `where(column, operator, value)`. -/
def whereOp (q : Query) (column operator : String) (value : Val) :
    Except String Query :=
  whereArgs q column (.vStr operator) value "AND"

/-- Two-argument `where(column, value)`. -/
def whereVal (q : Query) (column : String) (value : Val) :
    Except String Query :=
  whereArgs q column value .vNull "AND"

/-- Three-argument `orWhere(column, operator, value)`. -/
def orWhereOp (q : Query) (column operator : String) (value : Val) :
    Except String Query :=
  whereArgs q column (.vStr operator) value "OR"

/-- Two-argument `orWhere(column, value)`. -/
def orWhereVal (q : Query) (column : String) (value : Val) :
    Except String Query :=
  whereArgs q column value .vNull "OR"

/-- `whereIn(column, values)`: the empty list pushes the always-false
condition `{ column: '1', operator: '=', value: 0, type: 'AND' }`. -/
def whereIn (q : Query) (column : String) (values : List Val) :
    Except String Query := do
  let _ ← validateColumnName column "WHERE"
  if values.isEmpty then
    .ok (pushWhere (.cond "1" "=" (.vInt 0) "AND") q)
  else
    .ok (pushWhere (.condList column "IN" values "AND") q)

/-- `whereNotIn(column, values)`: the empty list is a no-op. -/
def whereNotIn (q : Query) (column : String) (values : List Val) :
    Except String Query := do
  let _ ← validateColumnName column "WHERE"
  if values.isEmpty then
    .ok q
  else
    .ok (pushWhere (.condList column "NOT IN" values "AND") q)

/-- `whereBetween(column, values)`. -/
def whereBetween (q : Query) (column : String) (values : List Val) :
    Except String Query := do
  let _ ← validateColumnName column "WHERE"
  if values.length ≠ 2 then
    .error "whereBetween() requires an array of two values"
  else
    .ok (pushWhere (.condList column "BETWEEN" values "AND") q)

/-- `group(callback)`: `GROUP_START`/`GROUP_END` around whatever the
callback pushes onto the same builder. -/
def group (f : Query → Except String Query) (q : Query) :
    Except String Query := do
  let q1 ← f (pushWhere (.groupStart "AND") q)
  .ok (pushWhere .groupEnd q1)

/-- `orGroup(callback)`. -/
def orGroup (f : Query → Except String Query) (q : Query) :
    Except String Query := do
  let q1 ← f (pushWhere (.groupStart "OR") q)
  .ok (pushWhere .groupEnd q1)

/-- `whereHas` = `whereExistsRelation`: push an `EXISTS` node. -/
def whereHas (q : Query) (relatedTable : String) (foreignKey localKey : KeyRef)
    (extraWhere : List WhereCond) : Except String Query := do
  let node ← buildExistsSubquery q relatedTable foreignKey localKey "EXISTS" extraWhere
  .ok (pushWhere node q)

/-! ## Joins, projection, ordering -/

/-- `join(table, condition, type)`: no validation of either string. -/
def join (q : Query) (table condition jtype : String) : Query :=
  pushJoin (table, condition, jtype) q

/-- `leftJoin(table, condition)`. -/
def leftJoin (q : Query) (table condition : String) : Query :=
  join q table condition "LEFT"

/-- `rightJoin(table, condition)`. -/
def rightJoin (q : Query) (table condition : String) : Query :=
  join q table condition "RIGHT"

/-- `select(columns)` with a string argument. -/
def selectStr (q : Query) (columns : String) : Query :=
  setSelect columns (setType "SELECT" q)

/-- `select(columns)` with an array argument (`columns.join(', ')`). -/
def selectList (q : Query) (columns : List String) : Query :=
  setSelect (joinSep ", " columns) (setType "SELECT" q)

/-- `distinct()`. -/
def distinct (q : Query) : Query :=
  setDistinct true q

/-! ## Mutation payloads -/

/-- `insert(data)`: the optional `table` property of the payload
overrides the target table with no validation; the remaining
column-value pairs become `#query.set`. -/
def insert (q : Query) (tableField : Option String)
    (data : List (String × Val)) : Query :=
  let q1 := setType "INSERT" q
  let q2 := match tableField with
    | some t => setTable t q1
    | none => q1
  setSet (some data) q2

/-- `update(data)`: same payload convention as `insert`. -/
def update (q : Query) (tableField : Option String)
    (data : List (String × Val)) : Query :=
  let q1 := setType "UPDATE" q
  let q2 := match tableField with
    | some t => setTable t q1
    | none => q1
  setSet (some data) q2

/-- `upsert(data, updateData)`.  The JS source filters `undefined`
values out of the insert payload (our `Val` has no distinct
`undefined`, so the filter is the identity here), requires a non-empty
insert payload, and defaults the update payload to the insert data. -/
def upsert (q : Query) (tableField : Option String)
    (data : List (String × Val)) (updateData : Option (List (String × Val))) :
    Except String Query := do
  let q1 := setType "UPSERT" q
  let q2 := match tableField with
    | some t => setTable t q1
    | none => q1
  if data.isEmpty then
    .error "upsert() requires insert data"
  else
    let updates := match updateData with
      | none => data
      | some u => u
    if updates.isEmpty then
      .error "upsert() requires update data"
    else
      .ok (setUpsertUpdate (some updates) (setSet (some data) q2))

/-- `delete(table)`. -/
def deleteOp (q : Query) (tableField : Option String) : Query :=
  let q1 := setType "DELETE" q
  match tableField with
  | some t => setTable t q1
  | none => q1

/-! ## Relation / aggregate registration -/

/-- The dynamic "table string or `{table: alias}` map" argument. -/
inductive RelTarget where
  | tbl : String → RelTarget
  | tblAlias : String → String → RelTarget
deriving DecidableEq, Repr

/-- `#parseRelationName(relation)`. -/
def parseRelationName : RelTarget → String × String
  | .tbl t => (t, t)
  | .tblAlias t a => (t, a)

/-- `withMany(relation, foreignKey, localKey)`. -/
def withMany (q : Query) (relation : RelTarget) (foreignKey localKey : KeyRef) :
    Query :=
  let (relatedTable, relationName) := parseRelationName relation
  pushWith ⟨"hasMany", relationName, relatedTable, foreignKey, localKey⟩ q

/-- `withOne(relation, foreignKey, localKey)`. -/
def withOne (q : Query) (relation : RelTarget) (foreignKey localKey : KeyRef) :
    Query :=
  let (relatedTable, relationName) := parseRelationName relation
  pushWith ⟨"hasOne", relationName, relatedTable, foreignKey, localKey⟩ q

/-- `#parseAggregateAlias(relatedTable, column, aggregateType)`:
auto-alias `${table}_count` / `${table}_${column}_${type_lc}` for the
string form, supplied alias for the map form. -/
def parseAggregateAlias (relatedTable : RelTarget) (column : Option String)
    (aggregateType : String) : String × String :=
  match relatedTable with
  | .tbl t =>
    (t, if aggregateType = "COUNT" then t ++ "_count"
        else t ++ "_" ++ (column.getD "null") ++ "_" ++ jsToLower aggregateType)
  | .tblAlias t a => (t, a)

/-- `#registerAggregate(aggregateType, relatedTable, foreignKey,
localKey, column, callback)`. -/
def registerAggregate (q : Query) (aggregateType : String)
    (relatedTable : RelTarget) (foreignKey localKey : KeyRef)
    (column : Option String) (extraWhere : List WhereCond) : Query :=
  let (table, aliasS) := parseAggregateAlias relatedTable column aggregateType
  pushAggregate
    (.mk aggregateType table foreignKey localKey
      (if aggregateType = "COUNT" then "*" else column.getD "null")
      aliasS extraWhere) q

/-- `withSum(relatedTable, foreignKey, localKey, column, callback)`. -/
def withSum (q : Query) (relatedTable : RelTarget) (foreignKey localKey : KeyRef)
    (column : String) (extraWhere : List WhereCond) : Query :=
  registerAggregate q "SUM" relatedTable foreignKey localKey (some column) extraWhere

/-- `withCount(relatedTable, foreignKey, localKey, callback)`. -/
def withCount (q : Query) (relatedTable : RelTarget) (foreignKey localKey : KeyRef)
    (extraWhere : List WhereCond) : Query :=
  registerAggregate q "COUNT" relatedTable foreignKey localKey none extraWhere

/-! ## SQL compiler (`buildSql`, `buildWhere`, `buildHaving`)

The compiler returns the emitted SQL string together with the ordered
parameter list (`this.#parameters` is reset at the top of `buildSql`
and only appended to afterwards, so returning the list is equivalent to
the mutation).  The recursion through nested subqueries is driven by an
explicit fuel argument; every theorem below quantifies over the fuel. -/

/-- Current group's counter (`conditionsInGroup[groupLevel]`); an empty
stack mirrors the out-of-range `undefined > 0 === false` lookup. -/
def headCount : List Nat → Nat
  | [] => 0
  | n :: _ => n

/-- `conditionsInGroup[groupLevel]++`. -/
def bumpHead : List Nat → List Nat
  | [] => []
  | n :: rest => (n + 1) :: rest

/-- The JOIN clauses: `` ` ${join.type} JOIN ${join.table} ON ${join.condition}` ``. -/
def joinsSql (joins : List (String × String × String)) : String :=
  joins.foldl (fun acc j => acc ++ " " ++ j.2.2 ++ " JOIN " ++ j.1 ++ " ON " ++ j.2.1) ""

/-- GROUP BY clause. -/
def groupBySql (g : List String) : String :=
  if g.isEmpty then "" else " GROUP BY " ++ joinSep ", " g

/-- ORDER BY clause. -/
def orderBySql (o : List (String × String)) : String :=
  if o.isEmpty then ""
  else " ORDER BY " ++ joinSep ", " (o.map (fun p => p.1 ++ " " ++ p.2))

/-- LIMIT/OFFSET: OFFSET is emitted only when LIMIT is set. -/
def limitSql (l o : Option Int) : String :=
  match l with
  | none => ""
  | some n =>
    " LIMIT " ++ toString n ++
      (match o with
       | some m => " OFFSET " ++ toString m
       | none => "")

/-- Body of `buildHaving`: each condition after the first is preceded
by its own connective. -/
def buildHavingGo : Bool → List (String × String × Val × String) → String × List Val
  | _, [] => ("", [])
  | isFirst, (col, op, v, ty) :: rest =>
    ((if isFirst then "" else " " ++ ty ++ " ") ++ col ++ " " ++ op ++ " ?" ++
       (buildHavingGo false rest).1,
     v :: (buildHavingGo false rest).2)

/-- `buildHaving()`. -/
def buildHaving (h : List (String × String × Val × String)) : String × List Val :=
  if h.isEmpty then ("", [])
  else (" HAVING " ++ (buildHavingGo true h).1, (buildHavingGo true h).2)

/-- `col.replace(/.*\./, '')`: strip everything up to the last dot. -/
def cleanCol (col : String) : String :=
  ((splitChar '.' col).getLast?).getD col

/-- Whether a projection already mentions a key column. -/
def hasKeyIn (selectColumns : List String) (key : String) : Bool :=
  selectColumns.any (fun col => cleanCol col = key || jsStartsWith (cleanCol col) (key ++ " "))

/-- Insert into an ordered set (JS `Set` keeps insertion order). -/
def addUnique (l : List String) (s : String) : List String :=
  if l.contains s then l else l ++ [s]

/-- The local keys required by the registered relations. -/
def requiredKeysOf (withL : List RelationSpec) : List String :=
  withL.foldl
    (fun acc rel =>
      match rel.localKey with
      | .single s => addUnique acc s
      | .comp ls => ls.foldl addUnique acc)
    []

/-- Projection expansion for eager loading: append
`${table}.${key}` for each required local key missing from an explicit
projection. -/
def autoAddSelect (tbl : String) (withL : List RelationSpec) (selectS : String) : String :=
  let selectColumns := (splitChar ',' selectS).map jsTrim
  let req := requiredKeysOf withL
  let added := (req.filter (fun k => !hasKeyIn selectColumns k)).map (fun k => tbl ++ "." ++ k)
  joinSep ", " (selectColumns ++ added)

/-- `row[col]` (`undefined` reads collapse to `vNull`). -/
def rowGet (row : List (String × Val)) (c : String) : Val :=
  match row.find? (fun p => p.1 = c) with
  | some p => p.2
  | none => .vNull

/-- Single-row INSERT emission from `#query.set`. -/
def singleInsertSql (tbl : String) :
    Option (List (String × Val)) → Except String (String × List Val)
  | none => .error "TypeError: Cannot convert undefined or null to object"
  | some set =>
    let columns := set.map (fun p => p.1)
    .ok ("INSERT INTO " ++ tbl ++ " (" ++ joinSep ", " columns ++
           ") VALUES (" ++ joinSep ", " (columns.map (fun _ => "?")) ++ ")",
         set.map (fun p => p.2))

/-- The node walk of `buildWhere`: `stack` is `conditionsInGroup` with
the current group's counter at the head; `compileSub` compiles the
nested EXISTS / aggregate subqueries (it is instantiated with
`buildSqlF fuel` below). -/
def buildWhereGo (compileSub : Query → Except String (String × List Val))
    (stack : List Nat) : List WhereCond → Except String (String × List Val)
  | [] => .ok ("", [])
  | c :: rest =>
    match c with
    | .rawCond frag vals => do
      let conn := if headCount stack > 0 then " AND " else ""
      let (restS, restP) ← buildWhereGo compileSub (bumpHead stack) rest
      .ok (conn ++ frag ++ restS, vals ++ restP)
    | .groupStart gt => do
      let conn :=
        if headCount stack > 0 then " " ++ (if gt = "" then "AND" else gt) ++ " "
        else ""
      let (restS, restP) ← buildWhereGo compileSub (0 :: bumpHead stack) rest
      .ok (conn ++ "(" ++ restS, restP)
    | .groupEnd => do
      let (restS, restP) ← buildWhereGo compileSub stack.tail rest
      .ok (")" ++ restS, restP)
    | .existsCond etype sub => do
      let isOr := etype = "OR_EXISTS" ∨ etype = "OR_NOT_EXISTS"
      let conn :=
        if headCount stack > 0 then (if isOr then " OR " else " AND ") else ""
      let (subSql, subParams) ← compileSub sub
      let isNegated := etype = "NOT_EXISTS" ∨ etype = "OR_NOT_EXISTS"
      let frag :=
        if isNegated then "NOT EXISTS (" ++ subSql ++ ")"
        else "EXISTS (" ++ subSql ++ ")"
      let (restS, restP) ← buildWhereGo compileSub (bumpHead stack) rest
      .ok (conn ++ frag ++ restS, subParams ++ restP)
    | .aggSub sub operator value logicType => do
      let conn :=
        if headCount stack > 0 then (if logicType = "OR" then " OR " else " AND ")
        else ""
      let (subSql, subParams) ← compileSub sub
      let (restS, restP) ← buildWhereGo compileSub (bumpHead stack) rest
      .ok (conn ++ "(" ++ subSql ++ ") " ++ operator ++ " ?" ++ restS,
           subParams ++ [value] ++ restP)
    | .cond column operator value ctype => do
      let conn := if headCount stack > 0 then " " ++ ctype ++ " " else ""
      let (frag, ps) :=
        if value.isRaw then
          (column ++ " " ++ operator ++ " " ++ value.rawValue, ([] : List Val))
        else if (operator = "IS" ∨ operator = "IS NOT") ∧ value = .vNull then
          (column ++ " " ++ operator ++ " NULL", [])
        else
          (column ++ " " ++ operator ++ " ?", [value])
      let (restS, restP) ← buildWhereGo compileSub (bumpHead stack) rest
      .ok (conn ++ frag ++ restS, ps ++ restP)
    | .condList column operator values ctype => do
      let conn := if headCount stack > 0 then " " ++ ctype ++ " " else ""
      let (frag, ps) :=
        if operator = "IN" ∨ operator = "NOT IN" then
          (column ++ " " ++ operator ++ " (" ++
             joinSep ", " (values.map (fun _ => "?")) ++ ")", values)
        else if operator = "BETWEEN" ∨ operator = "NOT BETWEEN" then
          (column ++ " " ++ operator ++ " ? AND ?",
           [values.getD 0 .vNull, values.getD 1 .vNull])
        else
          -- not reachable through the builder API; the JS code would bind
          -- the whole array as a single value for `col op ?`
          (column ++ " " ++ operator ++ " ?", [Val.vNull])
      let (restS, restP) ← buildWhereGo compileSub (bumpHead stack) rest
      .ok (conn ++ frag ++ restS, ps ++ restP)

/-- `buildWhere()`: empty list yields no clause, otherwise `' WHERE '`
plus the node walk starting with the group-counter stack `[0]`. -/
def buildWhereClause (compileSub : Query → Except String (String × List Val))
    (whereL : List WhereCond) : Except String (String × List Val) :=
  if whereL.isEmpty then .ok ("", [])
  else
    match buildWhereGo compileSub [0] whereL with
    | .error e => .error e
    | .ok (s, ps) => .ok (" WHERE " ++ s, ps)

/-- Projection-time materialisation of the registered aggregates:
`(subquery) as alias` entries plus their parameters, in registration
order. -/
def buildAggsGo (compileSub : Query → Except String (String × List Val))
    (outerTable : Option String) :
    List AggregateSpec → Except String (List String × List Val)
  | [] => .ok ([], [])
  | spec :: rest =>
    match aggSubQuery outerTable spec with
    | .error e => .error e
    | .ok sub =>
      match compileSub sub with
      | .error e => .error e
      | .ok (subSql, subParams) =>
        match buildAggsGo compileSub outerTable rest with
        | .error e => .error e
        | .ok (restS, restP) =>
          .ok (("(" ++ subSql ++ ") as " ++ spec.aliasS) :: restS,
               subParams ++ restP)

/-- The expanded projection of a SELECT before aggregates are appended
(`selectClause` after the eager-loading auto-add step). -/
def selectClause1 (q : Query) : String :=
  if q.selectS ≠ "*" ∧ ¬ q.withL.isEmpty then
    autoAddSelect (q.table.getD "") q.withL q.selectS
  else q.selectS

/-- The bulk-insert column list: the keys of the first row. -/
def bulkColumns (rows : List (List (String × Val))) : List String :=
  match rows with
  | [] => []
  | r :: _ => r.map (fun p => p.1)

/-- One dispatch step of `buildSql()`: emit SQL plus the ordered
parameter list, recursing into subqueries through `compileSub`. -/
def buildSqlStep (compileSub : Query → Except String (String × List Val))
    (q : Query) : Except String (String × List Val) :=
  if q.table.getD "" = "" then
    .error "Table name is required. Use from() or query(tableName)"
  else
    match (match q.qtype with
           | some t => if t = "" then "SELECT" else t
           | none => "SELECT") with
    | "SELECT" =>
      match buildAggsGo compileSub q.table q.aggregatesL with
      | .error e => .error e
      | .ok (aggSelects, aggParams) =>
        match buildWhereClause compileSub q.whereL with
        | .error e => .error e
        | .ok (wsql, wparams) =>
          .ok ("SELECT " ++ (if q.distinctB then "DISTINCT " else "") ++
                 (if q.aggregatesL.isEmpty then selectClause1 q
                  else if selectClause1 q = "*" then
                    q.table.getD "" ++ ".*, " ++ joinSep ", " aggSelects
                  else selectClause1 q ++ ", " ++ joinSep ", " aggSelects) ++
                 " FROM " ++ q.table.getD "" ++ joinsSql q.joins ++ wsql ++
                 groupBySql q.groupByL ++ (buildHaving q.havingL).1 ++
                 orderBySql q.orderByL ++ limitSql q.limitV q.offsetV,
               aggParams ++ wparams ++ (buildHaving q.havingL).2)
    | "INSERT" =>
      match q.valuesV with
      | some rows =>
        if rows.length > 0 then
          .ok ("INSERT INTO " ++ q.table.getD "" ++ " (" ++
                 joinSep ", " (bulkColumns rows) ++ ") VALUES " ++
                 joinSep ", " (rows.map (fun _ =>
                   "(" ++ joinSep ", " ((bulkColumns rows).map (fun _ => "?")) ++ ")")),
               rows.flatMap (fun row => (bulkColumns rows).map (rowGet row)))
        else singleInsertSql (q.table.getD "") q.setV
      | none => singleInsertSql (q.table.getD "") q.setV
    | "UPDATE" =>
      match q.setV with
      | none => .error "TypeError: Cannot convert undefined or null to object"
      | some set =>
        match buildWhereClause compileSub q.whereL with
        | .error e => .error e
        | .ok (wsql, wparams) =>
          .ok ("UPDATE " ++ q.table.getD "" ++ " SET " ++
                 joinSep ", " (set.map (fun p => p.1 ++ " = ?")) ++ wsql,
               set.map (fun p => p.2) ++ wparams)
    | "UPSERT" =>
      match q.setV with
      | none => .error "TypeError: Cannot convert undefined or null to object"
      | some set =>
        if ((q.upsertUpdateV.getD []).isEmpty) then
          .error "upsert() requires update data"
        else
          .ok ("INSERT INTO " ++ q.table.getD "" ++ " (" ++
                 joinSep ", " (set.map (fun p => p.1)) ++ ") VALUES (" ++
                 joinSep ", " ((set.map (fun p => p.1)).map (fun _ => "?")) ++
                 ") ON DUPLICATE KEY UPDATE " ++
                 joinSep ", " ((q.upsertUpdateV.getD []).map (fun p =>
                   if p.2.isRaw then p.1 ++ " = " ++ p.2.rawValue
                   else p.1 ++ " = ?")),
               set.map (fun p => p.2) ++
                 ((q.upsertUpdateV.getD []).filter
                   (fun p => !p.2.isRaw)).map (fun p => p.2))
    | "DELETE" =>
      match buildWhereClause compileSub q.whereL with
      | .error e => .error e
      | .ok (wsql, wparams) =>
        .ok ("DELETE FROM " ++ q.table.getD "" ++ wsql, wparams)
    | _ =>
      -- unknown type string: the JS switch falls through and returns ''
      .ok ("", [])

/-- The recursive compiler: one `buildSqlStep` per fuel unit, recursing
into nested subqueries at the next-smaller fuel. -/
def buildSqlF : Nat → Query → Except String (String × List Val)
  | 0, _ => .error "out of fuel"
  | fuel + 1, q => buildSqlStep (buildSqlF fuel) q

/-- `toSql()` / entry point.  The fixed fuel dominates the recursion
depth of every concrete query compiled in this development; all
universally quantified theorems range over the fuel instead. -/
def buildSql (q : Query) : Except String (String × List Val) :=
  buildSqlF 32 q

/-! ## Placeholder counting and raw-fragment well-formedness -/

/-- Number of `?` placeholder characters in a SQL string. -/
def countQ (s : String) : Nat :=
  s.data.countP (fun c => c = '?')

/-- A string free of the `?` character. -/
def noQ (s : String) : Bool :=
  s.data.all (fun c => c ≠ '?')

/-- Substring test (`sql.includes(pat)`). -/
def containsSub (s pat : String) : Bool :=
  decide (pat.data <:+: s.data)

/-- Raw-fragment well-formedness of one where node: structural strings
(`column`, `operator`, the connective) carry no stray `?`; a `RawSql`
comparison value carries none; an internal `RAW` node's fragment has
exactly as many `?` as bound values; nested subqueries are checked by
`recQ`. -/
def noStrayCondStep (recQ : Query → Bool) : WhereCond → Bool
  | .cond column operator value ctype =>
    noQ column && noQ operator && noQ ctype && (!value.isRaw || noQ value.rawValue)
  | .condList column operator _ ctype =>
    noQ column && noQ operator && noQ ctype
  | .groupStart gt => noQ gt
  | .groupEnd => true
  | .existsCond _ sub => recQ sub
  | .aggSub sub operator _ _ => noQ operator && recQ sub
  | .rawCond frag vals => countQ frag = vals.length

/-- No caller-supplied raw fragment of the AST contains a stray `?`:
the target table, the (expanded) projection, join fragments, group
by / having / order by identifiers and connectives, the rendered
limit/offset text, mutation-payload column names, `RawSql` values, the
aggregate aliases, and — recursively via `recQ` — every nested
subquery, including the scalar subqueries the compiler materialises
from the registered aggregate specs.  Everything the builder validates
as an `Identifier` satisfies this automatically (the `[A-Za-z0-9_.`]`
class excludes `?`); the predicate only constrains the unvalidated
escape hatches (join fragments, raw projections, `RawSql` text). -/
def noStrayQStep (recQ : Query → Bool) : Query → Bool
  | .mk _ table selectS _ joins whereL groupByL havingL orderByL
      limitV offsetV setV valuesV upsertUpdateV withL aggregatesL _ =>
    let tbl := table.getD ""
    noQ tbl &&
    noQ (if selectS ≠ "*" ∧ ¬ withL.isEmpty then autoAddSelect tbl withL selectS
         else selectS) &&
    noQ (joinsSql joins) &&
    whereL.all (noStrayCondStep recQ) &&
    noQ (groupBySql groupByL) &&
    havingL.all (fun h => noQ h.1 && noQ h.2.1 && noQ h.2.2.2) &&
    noQ (orderBySql orderByL) &&
    noQ (limitSql limitV offsetV) &&
    (match setV with
     | none => true
     | some s => s.all (fun p => noQ p.1)) &&
    (match valuesV with
     | none => true
     | some rows => rows.all (fun r => r.all (fun p => noQ p.1))) &&
    (match upsertUpdateV with
     | none => true
     | some u => u.all (fun p => noQ p.1 && (!p.2.isRaw || noQ p.2.rawValue))) &&
    aggregatesL.all (fun spec =>
      noQ spec.aliasS &&
      (match aggSubQuery table spec with
       | .ok sub => recQ sub
       | .error _ => true))

/-- Depth-bounded raw-fragment well-formedness, aligned with the fuel
of `buildSqlF`. -/
def noStrayQF : Nat → Query → Bool
  | 0, _ => false
  | fuel + 1, q => noStrayQStep (noStrayQF fuel) q

/-! ## Terminal-operation state transitions -/

/-- Builder state observable across calls: the AST and `#parameters`. -/
def resetState : Query × List Val := (resetQuery, [])

/-- `get()`: compiles, executes, post-processes, then calls
`this.#reset()` unconditionally, discarding every intermediate
mutation of the AST and of `#parameters`. -/
def getStateAfter (_s : Query × List Val) : Query × List Val := resetState

/-- `first()` delegates to `get()`. -/
def firstStateAfter (s : Query × List Val) : Query × List Val := getStateAfter s

/-- `value(column)` delegates to `get()`. -/
def valueStateAfter (s : Query × List Val) : Query × List Val := getStateAfter s

/-- `execute()`: compiles, dispatches, then `this.#reset()`. -/
def executeStateAfter (_s : Query × List Val) : Query × List Val := resetState

/-- `chunk(size, cb)`: the `finally` block restores the saved
`limit`/`offset` and then calls `this.#reset()`. -/
def chunkStateAfter (_s : Query × List Val) : Query × List Val := resetState

/-- `chunkById(size, cb, column, alias)`: the `finally` block restores
the saved `limit`/`orderBy`/`where` and then calls `this.#reset()`. -/
def chunkByIdStateAfter (_s : Query × List Val) : Query × List Val := resetState

/-- `count()`: saves `#query.select`, overwrites it with
`'COUNT(*) as count'`, delegates to `first()` (which resets), and then
writes the saved select string back onto the freshly reset AST. -/
def countStateAfter (s : Query × List Val) : Query × List Val :=
  let originalSelect := s.1.selectS
  let s1 := (setSelect "COUNT(*) as count" s.1, s.2)
  let s2 := firstStateAfter s1
  (setSelect originalSelect s2.1, s2.2)

/-! ## Relation hydrator (`#loadRelations`) -/

/-- A database row: property names to values. -/
abbrev Row := List (String × Val)

/-- A value of a hydrated parent-row property: an untouched scalar
column, a `hasOne` attachment (`object or null`), or a `hasMany`
attachment (array of child rows). -/
inductive HProp where
  | scalar : Val → HProp
  | one : Option Row → HProp
  | many : List Row → HProp
deriving DecidableEq, Repr

/-- A parent row after hydration. -/
abbrev HRow := List (String × HProp)

/-- View a fetched row as a hydration target. -/
def toHRow (r : Row) : HRow :=
  r.map (fun p => (p.1, HProp.scalar p.2))

/-- `row[name] = v`: replace an existing property or append a new
one. -/
def setProp (name : String) (v : HProp) : HRow → HRow
  | [] => [(name, v)]
  | (k, w) :: rest => if k = name then (k, v) :: rest else (k, w) :: setProp name v rest

/-- Read a property of a hydrated row. -/
def lookupProp (row : HRow) (name : String) : Option HProp :=
  (row.find? (fun p => p.1 = name)).map (fun p => p.2)

/-- The empty attachment: `relation.type === 'hasOne' ? null : []`. -/
def emptyAttachment (rtype : String) : HProp :=
  if rtype = "hasOne" then .one none else .many []

/-- Strip the columns that were auto-added for mapping
(`addedForeignKeys.forEach(fk => delete cleanRecord[fk])`). -/
def cleanRecFn (addedFKs : List String) (record : Row) : Row :=
  record.filter (fun p => ¬ addedFKs.contains p.1)

/-- `Array.isArray(localKey) ? localKey : [localKey]`. -/
def lksOf : KeyRef → List String
  | .comp l => l
  | .single s => [s]

/-- The string-coerced foreign-key tuple of a fetched child record:
`record[fk]` for a single key, `fks.map(fk => record[fk]).join('|')`
for composite keys. -/
def childKeyOf (rel : RelationSpec) (record : Row) : String :=
  match rel.foreignKey with
  | .single f => (rowGet record f).jsKey
  | .comp fs => joinSep "|" (fs.map (fun fk => (rowGet record fk).jsKey))

/-- The string-coerced local-key tuple of a parent row, matching the
shape dispatch of `#loadRelations` (single keys use `row[localKey]`
with the array-coerced property name; composite keys join the
components with `'|'`). -/
def parentKeyOf (rel : RelationSpec) (row : Row) : String :=
  match rel.foreignKey with
  | .single _ => (rowGet row rel.localKey.jsString).jsKey
  | .comp _ => joinSep "|" ((lksOf rel.localKey).map (fun lk => (rowGet row lk).jsKey))

/-- `hasOne` mapping: `foreignKey → first matching (cleaned) record`
(`if (!mappedRelated[fk]) mappedRelated[fk] = record`). -/
def mapFirstBy (key : Row → String) (clean : Row → Row)
    (records : List Row) : List (String × Row) :=
  records.foldl
    (fun acc record =>
      let k := key record
      if (acc.find? (fun p => p.1 = k)).isSome then acc
      else acc ++ [(k, clean record)])
    []

/-- `hasMany` grouping: `foreignKey → [cleaned records…]`. -/
def groupByKeyFn (key : Row → String) (clean : Row → Row)
    (records : List Row) : List (String × List Row) :=
  records.foldl
    (fun acc record =>
      let k := key record
      let c := clean record
      if (acc.find? (fun p => p.1 = k)).isSome then
        acc.map (fun p => if p.1 = k then (p.1, p.2 ++ [c]) else p)
      else
        acc ++ [(k, [c])])
    []

/-- Shared attachment step of `#loadRelations` (both key shapes):
group or first-map the fetched child records by their (string-coerced)
foreign-key tuple, strip the columns that were auto-added for mapping,
and attach `map[key] || empty` to every parent row under the relation
name. -/
def attachRelation (rel : RelationSpec) (cleanRec : Row → Row)
    (rows fetched : List Row) : List HRow :=
  if rel.rtype = "hasOne" then
    let mapped := mapFirstBy (childKeyOf rel) cleanRec fetched
    rows.map (fun row =>
      setProp rel.relationName
        (match mapped.find? (fun p => p.1 = parentKeyOf rel row) with
         | some p => .one (some p.2)
         | none => .one none)
        (toHRow row))
  else
    let grouped := groupByKeyFn (childKeyOf rel) cleanRec fetched
    rows.map (fun row =>
      setProp rel.relationName
        (match grouped.find? (fun p => p.1 = parentKeyOf rel row) with
         | some p => .many p.2
         | none => .many [])
        (toHRow row))

/-- One iteration of the `for (const relation of relations)` loop of
`#loadRelations`, for a single relation.  `fetched` stands for the
rows returned by the relation sub-query (the executor is abstract;
the attachment logic below is what the claim is about), and
`addedFKs` for the foreign-key columns the callback-projection repair
recorded as auto-added. -/
def loadRelation (rel : RelationSpec) (addedFKs : List String)
    (rows fetched : List Row) : Except String (List HRow) :=
  match rel.foreignKey with
  | .comp fks =>
    if fks.length ≠ (lksOf rel.localKey).length then
      .error "Foreign keys and local keys must have the same length for composite keys"
    else if ((rows.map (fun r => (lksOf rel.localKey).map (fun k => rowGet r k))).filter
        (fun pair => pair.all (fun v => v ≠ .vNull))).isEmpty then
      .ok (rows.map (fun row =>
        setProp rel.relationName (emptyAttachment rel.rtype) (toHRow row)))
    else
      .ok (attachRelation rel (cleanRecFn addedFKs) rows fetched)
  | .single _ =>
    if ((rows.map (fun r => rowGet r rel.localKey.jsString)).filter
        (fun v => v ≠ .vNull)).isEmpty then
      .ok (rows.map (fun row =>
        setProp rel.relationName (emptyAttachment rel.rtype) (toHRow row)))
    else
      .ok (attachRelation rel (cleanRecFn addedFKs) rows fetched)

/-! ## Chunk driver (`#runChunkLoop`, `chunk`) -/

/-- The rows returned by one chunk query: the builder runs with
`limit = size` and `offset = page · size` against a fixed result
set. -/
def chunkFetch (dataset : List Row) (size page : Nat) : List Row :=
  (dataset.drop (page * size)).take size

/-- The `while (true)` loop of `#runChunkLoop` for the offset-based
`chunk(size, cb)` strategy, recorded as a trace: the list of row sets
returned by the issued queries and the list of callback invocations
`(rows, page)`.  `remaining` is `dataset.drop (page · size)`, so each
iteration's fetch is `remaining.take size`.  Loop exits: zero rows
(before the callback), the callback's explicit `false`, or a short
page. -/
def runChunkLoopGo (size : Nat) (cb : List Row → Nat → Bool) (page : Nat)
    (remaining : List Row) : List (List Row) × List (List Row × Nat) :=
  let rows := remaining.take size
  if h : rows.isEmpty then
    ([rows], [])
  else if cb rows page = false then
    ([rows], [(rows, page)])
  else if rows.length < size then
    ([rows], [(rows, page)])
  else
    let t := runChunkLoopGo size cb (page + 1) (remaining.drop size)
    (rows :: t.1, (rows, page) :: t.2)
  termination_by remaining.length
  decreasing_by
    simp only [List.isEmpty_iff] at h
    have hsz : size ≠ 0 := by
      intro hs
      exact h (by simp [rows, hs])
    have hrem : remaining ≠ [] := by
      intro hr
      exact h (by simp [rows, hr])
    have : 0 < remaining.length := List.length_pos.mpr hrem
    simp only [List.length_drop]
    omega

/-- `chunk(size, cb)` trace over a fixed result set. -/
def runChunkLoop (size : Nat) (cb : List Row → Nat → Bool)
    (dataset : List Row) : List (List Row) × List (List Row × Nat) :=
  runChunkLoopGo size cb 0 dataset

/-! ## Concrete builder chains used by individual claims -/

/-- `query('users')` / `builder('users')`. -/
def usersBase : Query := setTable "users" resetQuery

/-- `builder('users').group(q => q.where('name','John')
.orWhere('name','Jane')).where('status','active')`. -/
def c6Query : Except String Query := do
  let q0 ← fromTable resetQuery "users"
  let q1 ← group
    (fun q => do
      let a ← whereVal q "name" (.vStr "John")
      orWhereVal a "name" (.vStr "Jane"))
    q0
  whereVal q1 "status" (.vStr "active")

/-- `builder('users').withSum({transactions:'total'},'user_id','id',
'amount').where('total','>',10000)`. -/
def c4Query : Except String Query := do
  let q0 ← fromTable resetQuery "users"
  let q1 := withSum q0 (.tblAlias "transactions" "total")
    (.single "user_id") (.single "id") "amount" []
  whereOp q1 "total" ">" (.vInt 10000)

/-- The SQL the chain of `c4Query` compiles to. -/
def c4Sql : String :=
  "SELECT users.*, (SELECT SUM(amount) FROM transactions WHERE transactions.user_id = users.id) as total FROM users WHERE (SELECT SUM(amount) FROM transactions WHERE transactions.user_id = users.id) > ?"

/-- A public-API query whose join condition carries a stray `?`:
`query('users').join('posts', 'x = ?')`. -/
def c1CexQuery : Query := join usersBase "posts" "x = ?" "INNER"

/-- `query('users').join('bad name', 'users.id = x.id')`: the join
table name is accepted without validation. -/
def c2JoinQuery : Query := join usersBase "bad name" "users.id = x.id" "INNER"

/-- `query('users').insert({table: 'bad name', x: 1})`: the payload
table override is accepted without validation. -/
def c2InsertQuery : Query := insert usersBase (some "bad name") [("x", .vInt 1)]

/-- A public-API SELECT exercising aggregate projection/WHERE
subqueries, a composite-key EXISTS, IN and BETWEEN expansion, and a
group — used to exhibit the placeholder/parameter invariant on a rich
AST. -/
def c1RichQuery : Except String Query := do
  let q0 ← fromTable resetQuery "users"
  let q1 := withSum q0 (.tblAlias "transactions" "total") (.single "user_id")
    (.single "id") "amount" [.cond "status" "=" (.vStr "completed") "AND"]
  let q2 ← whereHas q1 "orders" (.comp ["user_id", "store_id"])
    (.comp ["id", "store_id"]) [.cond "qty" ">" (.vInt 0) "AND"]
  let q3 ← whereIn q2 "id" [.vInt 1, .vInt 2, .vInt 3]
  let q4 ← whereBetween q3 "age" [.vInt 18, .vInt 65]
  let q5 ← whereOp q4 "total" ">" (.vInt 100)
  let q6 ← group
    (fun q => do
      let a ← whereVal q "a" (.vStr "x")
      orWhereVal a "b" (.vStr "y"))
    q5
  .ok (setDistinct true q6)

/-- The `Query` value built by `c1RichQuery`. -/
def c1RichQueryVal : Query :=
  match c1RichQuery with
  | .ok q => q
  | .error _ => resetQuery

/-- The SQL `c1RichQueryVal` compiles to. -/
def c1RichSql : String :=
  "SELECT DISTINCT users.*, (SELECT SUM(amount) FROM transactions WHERE transactions.user_id = users.id AND status = ?) as total FROM users WHERE EXISTS (SELECT 1 FROM orders WHERE orders.user_id = users.id AND orders.store_id = users.store_id AND qty > ?) AND id IN (?, ?, ?) AND age BETWEEN ? AND ? AND (SELECT SUM(amount) FROM transactions WHERE transactions.user_id = users.id AND status = ?) > ? AND (a = ? OR b = ?)"

/-- The parameter list `c1RichQueryVal` compiles to. -/
def c1RichParams : List Val :=
  [.vStr "completed", .vInt 0, .vInt 1, .vInt 2, .vInt 3, .vInt 18, .vInt 65,
   .vStr "completed", .vInt 100, .vStr "x", .vStr "y"]

/-- A four-row result set for exercising `chunk`. -/
def c7Dataset : List Row :=
  [[("id", .vInt 1)], [("id", .vInt 2)], [("id", .vInt 3)], [("id", .vInt 4)]]

/-- A chunk callback that never requests early termination. -/
def cbTrue : List Row → Nat → Bool := fun _ _ => true

/-- `withMany('transactions', 'user_id', 'id')`. -/
def c5Rel : RelationSpec :=
  ⟨"hasMany", "transactions", "transactions", .single "user_id", .single "id"⟩

/-- Two parent rows. -/
def c5Parents : List Row := [[("id", .vInt 1)], [("id", .vInt 2)]]

/-- One child row matching the first parent. -/
def c5Kids : List Row := [[("user_id", .vInt 1), ("amt", .vInt 5)]]

/-- The hydrated parents. -/
def c5Out : List HRow :=
  match loadRelation c5Rel [] c5Parents c5Kids with
  | .ok o => o
  | .error _ => []

/-- Decidable equality for compiler results. -/
instance instDecEqExcept {ε α : Type} [DecidableEq ε] [DecidableEq α] :
    DecidableEq (Except ε α) := fun x y =>
  match x, y with
  | .ok a, .ok b =>
    if h : a = b then .isTrue (by rw [h])
    else .isFalse (by intro hh; cases hh; exact h rfl)
  | .error a, .error b =>
    if h : a = b then .isTrue (by rw [h])
    else .isFalse (by intro hh; cases hh; exact h rfl)
  | .ok _, .error _ => .isFalse (by intro hh; cases hh)
  | .error _, .ok _ => .isFalse (by intro hh; cases hh)

/-! # Theorems -/

theorem countQ_append (a b : String) : countQ (a ++ b) = countQ a + countQ b := by
  simp [countQ, String.data_append, List.countP_append]

theorem countQ_of_noQ {s : String} (h : noQ s = true) : countQ s = 0 := by
  simp only [noQ, List.all_eq_true, decide_eq_true_eq] at h
  simp only [countQ]
  rw [List.countP_eq_zero]
  intro a ha
  simpa using h a ha

theorem noQ_append {a b : String} (ha : noQ a = true) (hb : noQ b = true) :
    noQ (a ++ b) = true := by
  simp only [noQ, String.data_append, List.all_append, Bool.and_eq_true]
  exact ⟨ha, hb⟩

theorem countQ_joinSep {sep : String} (hsep : noQ sep = true) (l : List String) :
    countQ (joinSep sep l) = (l.map countQ).sum := by
  induction l with
  | nil => simp [joinSep, countQ]
  | cons a rest ih =>
    cases rest with
    | nil => simp [joinSep]
    | cons b rest2 =>
      simp only [joinSep] at ih ⊢
      rw [countQ_append, countQ_append, countQ_of_noQ hsep]
      simp only [List.map_cons, List.sum_cons] at ih ⊢
      omega

theorem sum_map_one {α : Type} (l : List α) : (l.map (fun _ => 1)).sum = l.length := by
  induction l with
  | nil => rfl
  | cons a rest ih => simp [ih]; omega

theorem countQ_placeholders {α : Type} (vals : List α) :
    countQ (joinSep ", " (vals.map (fun _ => "?"))) = vals.length := by
  rw [countQ_joinSep (by decide), List.map_map]
  have h : (countQ ∘ fun (_ : α) => "?") = fun (_ : α) => 1 := by
    funext x
    simp only [Function.comp]
    decide
  rw [h, sum_map_one]

theorem except_bind_ok {α β : Type} {e : Except String α} {f : α → Except String β}
    {b : β} : (e >>= f) = .ok b ↔ ∃ a, e = .ok a ∧ f a = .ok b := by
  cases e with
  | ok a => simp [Bind.bind, Except.bind]
  | error s =>
    constructor
    · intro h
      exact absurd h (by simp [Bind.bind, Except.bind])
    · rintro ⟨a, ha, _⟩
      cases ha

theorem countQ_ite {c : Prop} [Decidable c] {a b : String}
    (ha : countQ a = 0) (hb : countQ b = 0) : countQ (if c then a else b) = 0 := by
  split <;> assumption

theorem buildWhereGo_count
    (compileSub : Query → Except String (String × List Val))
    (recQ : Query → Bool)
    (hsub : ∀ q sql ps, recQ q = true → compileSub q = .ok (sql, ps) →
      countQ sql = ps.length) :
    ∀ (conds : List WhereCond) (stack : List Nat) (sql : String) (ps : List Val),
      conds.all (noStrayCondStep recQ) = true →
      buildWhereGo compileSub stack conds = .ok (sql, ps) →
      countQ sql = ps.length := by
  intro conds
  induction conds with
  | nil =>
    intro stack sql ps _ hok
    simp only [buildWhereGo] at hok
    injection hok with h1
    injection h1 with hs hp
    subst hs
    subst hp
    decide
  | cons c rest ih =>
    intro stack sql ps hall hok
    simp only [List.all_cons, Bool.and_eq_true] at hall
    obtain ⟨hc, hrest⟩ := hall
    cases c with
    | rawCond frag vals =>
      simp only [buildWhereGo] at hok
      cases hrec : buildWhereGo compileSub (bumpHead stack) rest with
      | error e =>
        rw [hrec] at hok
        cases hok
      | ok pair =>
        rw [hrec] at hok
        injection hok with h1
        injection h1 with hs hp
        subst hs
        subst hp
        simp only [noStrayCondStep, decide_eq_true_eq] at hc
        rw [countQ_append, countQ_append,
          countQ_ite (c := headCount stack > 0) (by decide) (by decide), hc,
          ih _ _ _ hrest hrec, List.length_append]
        omega
    | groupStart gt =>
      simp only [buildWhereGo] at hok
      cases hrec : buildWhereGo compileSub (0 :: bumpHead stack) rest with
      | error e =>
        rw [hrec] at hok
        cases hok
      | ok pair =>
        rw [hrec] at hok
        injection hok with h1
        injection h1 with hs hp
        subst hs
        subst hp
        simp only [noStrayCondStep] at hc
        have hconn : countQ (if headCount stack > 0 then
            " " ++ (if gt = "" then "AND" else gt) ++ " " else "") = 0 := by
          apply countQ_ite _ (by decide)
          rw [countQ_append, countQ_append,
            countQ_ite (by decide) (countQ_of_noQ hc)]
          decide
        rw [countQ_append, countQ_append, hconn, ih _ _ _ hrest hrec,
          show countQ "(" = 0 from by decide]
        omega
    | groupEnd =>
      simp only [buildWhereGo] at hok
      cases hrec : buildWhereGo compileSub stack.tail rest with
      | error e =>
        rw [hrec] at hok
        cases hok
      | ok pair =>
        rw [hrec] at hok
        injection hok with h1
        injection h1 with hs hp
        subst hs
        subst hp
        rw [countQ_append, ih _ _ _ hrest hrec,
          show countQ ")" = 0 from by decide]
        omega
    | existsCond etype sub =>
      simp only [buildWhereGo] at hok
      cases hsubrec : compileSub sub with
      | error e =>
        rw [hsubrec] at hok
        cases hok
      | ok spair =>
        rw [hsubrec] at hok
        cases hrec : buildWhereGo compileSub (bumpHead stack) rest with
        | error e =>
          rw [hrec] at hok
          cases hok
        | ok pair =>
          rw [hrec] at hok
          injection hok with h1
          injection h1 with hs hp
          subst hs
          subst hp
          simp only [noStrayCondStep] at hc
          have hsubcount := hsub _ _ _ hc hsubrec
          have hfrag : countQ (if etype = "NOT_EXISTS" ∨ etype = "OR_NOT_EXISTS" then
              "NOT EXISTS (" ++ spair.1 ++ ")" else "EXISTS (" ++ spair.1 ++ ")")
              = spair.2.length := by
            split
            · rw [countQ_append, countQ_append, hsubcount,
                show countQ "NOT EXISTS (" = 0 from by decide,
                show countQ ")" = 0 from by decide]
              omega
            · rw [countQ_append, countQ_append, hsubcount,
                show countQ "EXISTS (" = 0 from by decide,
                show countQ ")" = 0 from by decide]
              omega
          rw [countQ_append, countQ_append,
            countQ_ite (c := headCount stack > 0)
              (countQ_ite (by decide) (by decide)) (by decide),
            hfrag, ih _ _ _ hrest hrec, List.length_append]
          omega
    | aggSub sub operator value logicType =>
      simp only [buildWhereGo] at hok
      cases hsubrec : compileSub sub with
      | error e =>
        rw [hsubrec] at hok
        cases hok
      | ok spair =>
        rw [hsubrec] at hok
        cases hrec : buildWhereGo compileSub (bumpHead stack) rest with
        | error e =>
          rw [hrec] at hok
          cases hok
        | ok pair =>
          rw [hrec] at hok
          injection hok with h1
          injection h1 with hs hp
          subst hs
          subst hp
          simp only [noStrayCondStep, Bool.and_eq_true] at hc
          obtain ⟨hop, hsubq⟩ := hc
          have hsubcount := hsub _ _ _ hsubq hsubrec
          simp only [countQ_append]
          rw [countQ_ite (c := headCount stack > 0)
              (countQ_ite (by decide) (by decide)) (by decide),
            hsubcount, countQ_of_noQ hop, ih _ _ _ hrest hrec,
            show countQ "(" = 0 from by decide, show countQ ") " = 0 from by decide,
            show countQ " ?" = 1 from by decide]
          simp only [List.length_append, List.length_cons, List.length_nil]
          omega
    | cond column operator value ctype =>
      simp only [buildWhereGo] at hok
      cases hrec : buildWhereGo compileSub (bumpHead stack) rest with
      | error e =>
        rw [hrec] at hok
        cases hok
      | ok pair =>
        rw [hrec] at hok
        injection hok with h1
        injection h1 with hs hp
        subst hs
        subst hp
        simp only [noStrayCondStep, Bool.and_eq_true] at hc
        obtain ⟨⟨⟨hcol, hop⟩, hct⟩, hraw⟩ := hc
        have hconn : countQ (if headCount stack > 0 then " " ++ ctype ++ " "
            else "") = 0 := by
          apply countQ_ite _ (by decide)
          rw [countQ_append, countQ_append, countQ_of_noQ hct]
          decide
        have hrestc := ih _ _ _ hrest hrec
        by_cases hvr : value.isRaw = true
        · have hrv : noQ value.rawValue = true := by
            rcases Bool.or_eq_true_iff.mp hraw with h | h
            · rw [hvr] at h
              cases h
            · exact h
          rw [if_pos hvr]
          simp only [countQ_append]
          rw [hconn, countQ_of_noQ hcol, countQ_of_noQ hop, countQ_of_noQ hrv,
            hrestc, show countQ " " = 0 from by decide]
          simp
        · rw [if_neg hvr]
          by_cases hisn : ((operator = "IS" ∨ operator = "IS NOT") ∧ value = .vNull)
          · rw [if_pos hisn]
            simp only [countQ_append]
            rw [hconn, countQ_of_noQ hcol, countQ_of_noQ hop, hrestc,
              show countQ " NULL" = 0 from by decide,
              show countQ " " = 0 from by decide]
            simp
          · rw [if_neg hisn]
            simp only [countQ_append]
            rw [hconn, countQ_of_noQ hcol, countQ_of_noQ hop, hrestc,
              show countQ " ?" = 1 from by decide,
              show countQ " " = 0 from by decide]
            simp only [List.length_append, List.length_cons, List.length_nil]
    | condList column operator values ctype =>
      simp only [buildWhereGo] at hok
      cases hrec : buildWhereGo compileSub (bumpHead stack) rest with
      | error e =>
        rw [hrec] at hok
        cases hok
      | ok pair =>
        rw [hrec] at hok
        injection hok with h1
        injection h1 with hs hp
        subst hs
        subst hp
        simp only [noStrayCondStep, Bool.and_eq_true] at hc
        obtain ⟨⟨hcol, hop⟩, hct⟩ := hc
        have hconn : countQ (if headCount stack > 0 then " " ++ ctype ++ " "
            else "") = 0 := by
          apply countQ_ite _ (by decide)
          rw [countQ_append, countQ_append, countQ_of_noQ hct]
          decide
        have hrestc := ih _ _ _ hrest hrec
        by_cases hin : (operator = "IN" ∨ operator = "NOT IN")
        · rw [if_pos hin]
          simp only [countQ_append]
          rw [hconn, countQ_of_noQ hcol, countQ_of_noQ hop, countQ_placeholders,
            hrestc, show countQ " (" = 0 from by decide,
            show countQ ")" = 0 from by decide,
            show countQ " " = 0 from by decide]
          simp only [List.length_append]
          omega
        · rw [if_neg hin]
          by_cases hbt : (operator = "BETWEEN" ∨ operator = "NOT BETWEEN")
          · rw [if_pos hbt]
            simp only [countQ_append]
            rw [hconn, countQ_of_noQ hcol, countQ_of_noQ hop, hrestc,
              show countQ " ? AND ?" = 2 from by decide,
              show countQ " " = 0 from by decide]
            simp only [List.length_append, List.length_cons, List.length_nil]
          · rw [if_neg hbt]
            simp only [countQ_append]
            rw [hconn, countQ_of_noQ hcol, countQ_of_noQ hop, hrestc,
              show countQ " ?" = 1 from by decide,
              show countQ " " = 0 from by decide]
            simp only [List.length_append, List.length_cons, List.length_nil]

/-- C6: the grouped-predicate chain compiles to exactly the claimed
SQL and parameter list: no connective before the first condition in a
group scope, `OR` inside the group, `AND` after the closed group. -/
theorem c6_grouped_predicate_sql :
    c6Query.bind buildSql =
      .ok ("SELECT * FROM users WHERE (name = ? OR name = ?) AND status = ?",
        [.vStr "John", .vStr "Jane", .vStr "active"]) := by
  decide

/-- C4 (counterexample): the compiled SELECT of the
`withSum({transactions:'total'}) … where('total','>',10000)` chain does
not contain the claimed projection text `") AS total"` — the compiler
emits a lowercase `as`. -/
theorem c4_aggregate_alias_filter_cex :
    c4Query.bind buildSql = .ok (c4Sql, [.vInt 10000])
    ∧ containsSub c4Sql
        "(SELECT SUM(amount) FROM transactions WHERE transactions.user_id = users.id) AS total"
        = false := by
  exact ⟨by decide, by decide⟩

/-- C4 (amended): the chain compiles to a projection containing
`"(SELECT SUM(amount) FROM transactions WHERE transactions.user_id = users.id) as total"`
(lowercase `as`), a WHERE containing
`"(SELECT SUM(amount) FROM transactions WHERE transactions.user_id = users.id) > ?"`,
and the single placeholder is bound to the parameter list `[10000]` —
the filter is pushed as an aggregate-subquery predicate. -/
theorem c4_aggregate_alias_filter_amended :
    c4Query.bind buildSql = .ok (c4Sql, [.vInt 10000])
    ∧ containsSub c4Sql
        "(SELECT SUM(amount) FROM transactions WHERE transactions.user_id = users.id) as total"
        = true
    ∧ containsSub c4Sql
        "(SELECT SUM(amount) FROM transactions WHERE transactions.user_id = users.id) > ?"
        = true
    ∧ countQ c4Sql = 1 := by
  exact ⟨by decide, by decide, by decide, by decide⟩

/-- C8 (counterexample): `whereIn('id', [])` on `query('users')`
compiles to `"SELECT * FROM users WHERE 1 = ?"` with parameter list
`[0]`; the emitted SQL does not contain the literal text `1 = 0`. -/
theorem c8_where_in_empty_cex :
    (whereIn usersBase "id" []).bind buildSql =
      .ok ("SELECT * FROM users WHERE 1 = ?", [.vInt 0])
    ∧ containsSub "SELECT * FROM users WHERE 1 = ?" "1 = 0" = false := by
  exact ⟨by decide, by decide⟩

/-- C8 (amended): for every valid column, `whereIn(col, [])` pushes the
always-false condition `{column:'1', operator:'=', value:0}`, so the
emitted WHERE clause contains `1 = ?` with the value `0` bound at that
placeholder, and the query returns zero rows. -/
theorem c8_where_in_empty_amended (col : String)
    (h : validateColumnName col "WHERE" = .ok ()) :
    whereIn usersBase col [] =
      .ok (pushWhere (.cond "1" "=" (.vInt 0) "AND") usersBase)
    ∧ buildSql (pushWhere (.cond "1" "=" (.vInt 0) "AND") usersBase) =
        .ok ("SELECT * FROM users WHERE 1 = ?", [.vInt 0]) := by
  constructor
  · unfold whereIn
    rw [h]
    rfl
  · decide

theorem c8_where_in_empty_witness :
    validateColumnName "id" "WHERE" = .ok ()
    ∧ (whereIn usersBase "id" [] =
        .ok (pushWhere (.cond "1" "=" (.vInt 0) "AND") usersBase)
      ∧ buildSql (pushWhere (.cond "1" "=" (.vInt 0) "AND") usersBase) =
          .ok ("SELECT * FROM users WHERE 1 = ?", [.vInt 0])) :=
  ⟨by decide, c8_where_in_empty_amended "id" (by decide)⟩

/-- C2 (counterexample): `'bad name'` fails the identifier test, yet
passing it as the join table or as the `table` field of an insert
payload raises no error — the string is interpolated into the emitted
SQL verbatim. -/
theorem c2_table_validation_cex :
    identRegexTest "bad name" = false
    ∧ buildSql c2JoinQuery =
        .ok ("SELECT * FROM users INNER JOIN bad name ON users.id = x.id", [])
    ∧ buildSql c2InsertQuery =
        .ok ("INSERT INTO bad name (x) VALUES (?)", [.vInt 1]) := by
  exact ⟨by decide, by decide, by decide⟩

/-- C2 (amended): only `from()` (and therefore the `query(table)`
factory) validates table names: every string that is empty or contains
a character outside `[A-Za-z0-9_.`]` makes `from()` fail with a
validation error before any SQL is emitted; table names reaching the
builder through `join`/`leftJoin`/`rightJoin` or through the `table`
field of a mutation payload are not validated. -/
theorem c2_table_validation_amended (q : Query) (t : String)
    (h : identRegexTest t = false) :
    ∃ e, fromTable q t = Except.error e := by
  unfold fromTable
  split
  · exact ⟨_, rfl⟩
  · rw [h]
    exact ⟨_, rfl⟩

theorem c2_table_validation_witness :
    identRegexTest "bad name" = false
    ∧ ∃ e, fromTable resetQuery "bad name" = Except.error e :=
  ⟨by decide, c2_table_validation_amended resetQuery "bad name" (by decide)⟩

/-- C3 (counterexample): after `count()` on a builder whose projection
was `select(['id'])`, the AST is not the reset AST — `count()` writes
the saved select string back after the reset. -/
theorem c3_terminal_reset_cex :
    countStateAfter (selectList usersBase ["id"], []) ≠ resetState := by
  intro h
  have h2 : ("id" : String) = "*" :=
    congrArg (fun s : Query × List Val => s.1.selectS) h
  exact absurd h2 (by decide)

/-- C3 (amended): `get`, `first`, `value`, `execute`, `chunk` and
`chunkById` leave the builder in the reset state (reset AST, empty
parameter list); `count` leaves the reset state except that
`#query.select` is restored to its pre-call value (so the AST equals
the reset AST only when the projection was still `'*'`). -/
theorem c3_terminal_reset_amended (s : Query × List Val) :
    getStateAfter s = resetState
    ∧ firstStateAfter s = resetState
    ∧ valueStateAfter s = resetState
    ∧ executeStateAfter s = resetState
    ∧ chunkStateAfter s = resetState
    ∧ chunkByIdStateAfter s = resetState
    ∧ countStateAfter s = (setSelect s.1.selectS resetQuery, []) := by
  exact ⟨rfl, rfl, rfl, rfl, rfl, rfl, rfl⟩

/-- C1 (counterexample): the public API admits a query — a join whose
`ON` fragment contains `?` — whose compiled SQL has more `?`
placeholders than bound parameters. -/
theorem c1_placeholder_count_cex :
    ∃ sql ps, buildSql c1CexQuery = Except.ok (sql, ps)
      ∧ countQ sql ≠ ps.length :=
  ⟨"SELECT * FROM users INNER JOIN posts ON x = ?", [], by decide, by decide⟩

/-- C9: for every non-null value, the two-argument `where(col, v)`
builds exactly the same state as the three-argument
`where(col, '=', v)` — the sentinel collapse rewrites the operator slot
to `'='`, and both calls push the same node, so compiled SQL and
parameters agree as well. -/
theorem c9_where_two_arg_equiv (q : Query) (col : String) (v : Val)
    (hv : v ≠ .vNull) :
    whereVal q col v = whereOp q col "=" v := by
  simp [whereVal, whereOp, whereArgs, hv]

theorem c9_where_two_arg_equiv_witness :
    (Val.vStr "active" ≠ Val.vNull)
    ∧ whereVal usersBase "status" (.vStr "active") =
        whereOp usersBase "status" "=" (.vStr "active") :=
  ⟨by decide, c9_where_two_arg_equiv usersBase "status" (.vStr "active") (by decide)⟩

theorem runChunkLoopGo_exact (size : Nat) (hsize : 0 < size)
    (cb : List Row → Nat → Bool) (hcb : ∀ rows page, cb rows page = true) :
    ∀ (k page : Nat) (remaining : List Row), remaining.length = k * size →
      runChunkLoopGo size cb page remaining =
        ((List.range k).map (fun i => (remaining.drop (i * size)).take size) ++ [[]],
         (List.range k).map (fun i => ((remaining.drop (i * size)).take size, page + i))) := by
  intro k
  induction k with
  | zero =>
    intro page remaining hlen
    have hnil : remaining = [] := List.eq_nil_of_length_eq_zero (by simpa using hlen)
    subst hnil
    simp [runChunkLoopGo]
  | succ k ih =>
    intro page remaining hlen
    have hrows_len : (remaining.take size).length = size := by
      rw [List.length_take, hlen, Nat.succ_mul]
      omega
    have hnotempty : ¬ (remaining.take size).isEmpty = true := by
      rw [List.isEmpty_iff]
      intro hnil
      rw [hnil] at hrows_len
      simp at hrows_len
      omega
    have hdrop_len : (remaining.drop size).length = k * size := by
      rw [List.length_drop, hlen, Nat.succ_mul]
      omega
    rw [runChunkLoopGo]
    simp only [hnotempty, if_false, hcb _ _, hrows_len, Nat.lt_irrefl, dif_neg, if_true,
      dite_eq_ite, ite_false, ite_true, show ((false = true) = False) from by simp,
      show ((true = false) = False) from by simp]
    rw [ih (page + 1) (remaining.drop size) hdrop_len]
    rw [List.range_succ_eq_map]
    simp only [List.map_cons, List.map_map, Nat.zero_mul, List.drop_zero, Nat.add_zero,
      List.cons_append, Prod.mk.injEq]
    constructor
    · congr 1
      congr 1
      apply List.map_congr_left
      intro i _
      simp only [Function.comp_apply, List.drop_drop]
      rw [Nat.succ_mul, Nat.add_comm]
    · congr 1
      apply List.map_congr_left
      intro i _
      simp only [Function.comp_apply, List.drop_drop, Prod.mk.injEq]
      refine ⟨?_, by omega⟩
      congr 2
      rw [Nat.succ_mul, Nat.add_comm]

/-- C7: `chunk(size, cb)` over a result set of exactly `k·size` rows
(with a callback that never stops early) invokes the callback exactly
`k` times with pages `0 … k-1` in order, each invocation receiving
`size` rows; `k + 1` queries are issued in total, the final one
returning zero rows, and the loop then terminates. -/
theorem c7_chunk_exact_multiple (size k : Nat) (hsize : 0 < size) (_hk : 0 < k)
    (dataset : List Row) (hlen : dataset.length = k * size)
    (cb : List Row → Nat → Bool) (hcb : ∀ rows page, cb rows page = true) :
    (runChunkLoop size cb dataset).2 =
      (List.range k).map (fun p => (chunkFetch dataset size p, p))
    ∧ (∀ c ∈ (runChunkLoop size cb dataset).2, c.1.length = size)
    ∧ (runChunkLoop size cb dataset).1.length = k + 1
    ∧ (runChunkLoop size cb dataset).1.getLast? = some ([] : List Row) := by
  have h := runChunkLoopGo_exact size hsize cb hcb k 0 dataset hlen
  unfold runChunkLoop
  rw [h]
  refine ⟨by simp [chunkFetch], ?_, by simp, by rw [List.getLast?_concat]⟩
  intro c hc
  simp only [List.mem_map, List.mem_range] at hc
  obtain ⟨i, hi, rfl⟩ := hc
  simp only [List.length_take, List.length_drop, hlen]
  have h1 : size ≤ (k - i) * size := Nat.le_mul_of_pos_left size (by omega)
  have h2 : (k - i) * size = k * size - i * size := Nat.sub_mul k i size
  omega

theorem lookupProp_setProp (name : String) (v : HProp) (row : HRow) :
    lookupProp (setProp name v row) name = some v := by
  induction row with
  | nil => simp [setProp, lookupProp]
  | cons a rest ih =>
    by_cases h : a.1 = name
    · simp [setProp, lookupProp, h]
    · simp only [setProp]
      rw [if_neg h]
      simpa [lookupProp, List.find?_cons, h] using ih

theorem mapFirstBy_keys (key : Row → String) (clean : Row → Row) :
    ∀ (records : List Row) (acc : List (String × Row)) (x : String × Row),
      x ∈ records.foldl
        (fun acc record =>
          let k := key record
          if (acc.find? (fun p => p.1 = k)).isSome then acc
          else acc ++ [(k, clean record)]) acc →
      x ∈ acc ∨ ∃ r ∈ records, x.1 = key r := by
  intro records
  induction records with
  | nil =>
    intro acc x hx
    exact .inl hx
  | cons r rest ih =>
    intro acc x hx
    simp only [List.foldl_cons] at hx
    rcases ih _ x hx with hx' | ⟨r', hr', hk⟩
    · split at hx'
      · exact .inl hx'
      · rcases List.mem_append.mp hx' with h1 | h2
        · exact .inl h1
        · refine .inr ⟨r, List.mem_cons_self r rest, ?_⟩
          simp only [List.mem_singleton] at h2
          rw [h2]
    · exact .inr ⟨r', List.mem_cons_of_mem r hr', hk⟩

theorem groupByKeyFn_keys (key : Row → String) (clean : Row → Row) :
    ∀ (records : List Row) (acc : List (String × List Row)) (x : String × List Row),
      x ∈ records.foldl
        (fun acc record =>
          let k := key record
          let c := clean record
          if (acc.find? (fun p => p.1 = k)).isSome then
            acc.map (fun p => if p.1 = k then (p.1, p.2 ++ [c]) else p)
          else
            acc ++ [(k, [c])]) acc →
      (∃ y ∈ acc, x.1 = y.1) ∨ ∃ r ∈ records, x.1 = key r := by
  intro records
  induction records with
  | nil =>
    intro acc x hx
    exact .inl ⟨x, hx, rfl⟩
  | cons r rest ih =>
    intro acc x hx
    simp only [List.foldl_cons] at hx
    rcases ih _ x hx with ⟨y, hy, hxy⟩ | ⟨r', hr', hk⟩
    · split at hy
      · rcases List.mem_map.mp hy with ⟨z, hz, hgz⟩
        refine .inl ⟨z, hz, ?_⟩
        rw [hxy, ← hgz]
        split <;> rfl
      · rcases List.mem_append.mp hy with h1 | h2
        · exact .inl ⟨y, h1, hxy⟩
        · refine .inr ⟨r, List.mem_cons_self r rest, ?_⟩
          simp only [List.mem_singleton] at h2
          rw [hxy, h2]
    · exact .inr ⟨r', List.mem_cons_of_mem r hr', hk⟩

theorem mapFirstBy_find_none (key : Row → String) (clean : Row → Row)
    (records : List Row) (pk : String)
    (h : ∀ r ∈ records, key r ≠ pk) :
    (mapFirstBy key clean records).find? (fun p => p.1 = pk) = none := by
  rw [List.find?_eq_none]
  intro x hx
  rcases mapFirstBy_keys key clean records [] x hx with hx' | ⟨r, hr, hk⟩
  · simp at hx'
  · simp only [decide_eq_true_eq]
    rw [hk]
    exact h r hr

theorem groupByKeyFn_find_none (key : Row → String) (clean : Row → Row)
    (records : List Row) (pk : String)
    (h : ∀ r ∈ records, key r ≠ pk) :
    (groupByKeyFn key clean records).find? (fun p => p.1 = pk) = none := by
  rw [List.find?_eq_none]
  intro x hx
  rcases groupByKeyFn_keys key clean records [] x hx with ⟨y, hy, _⟩ | ⟨r, hr, hk⟩
  · simp at hy
  · simp only [decide_eq_true_eq]
    rw [hk]
    exact h r hr

/-- C5: after hydrating a relation, every parent row carries the
relation property: for `hasOne` an object or `null` (and `null`
whenever no fetched child row's coerced foreign-key tuple equals the
parent's local-key tuple), for `hasMany` an array (and the empty array
whenever no child matches); the property is never absent. -/
theorem c5_relation_property_always_set (rel : RelationSpec)
    (addedFKs : List String) (rows fetched : List Row) (out : List HRow)
    (hout : loadRelation rel addedFKs rows fetched = Except.ok out)
    (i : Nat) (hi : i < rows.length) :
    ∃ hp, (out[i]?.bind (fun r => lookupProp r rel.relationName)) = some hp
      ∧ (rel.rtype = "hasOne" → hp = HProp.one none ∨ ∃ r, hp = HProp.one (some r))
      ∧ (rel.rtype ≠ "hasOne" → ∃ rs, hp = HProp.many rs)
      ∧ ((∀ child ∈ fetched,
            childKeyOf rel child ≠ parentKeyOf rel (rows.getD i [])) →
          hp = emptyAttachment rel.rtype) := by
  have hrowsi : rows[i]? = some (rows.getD i []) := by
    rw [List.getD_eq_getElem?_getD, List.getElem?_eq_getElem hi]
    rfl
  have hmain : ∀ cleanRec, out = attachRelation rel cleanRec rows fetched →
      ∃ hp, (out[i]?.bind (fun r => lookupProp r rel.relationName)) = some hp
        ∧ (rel.rtype = "hasOne" → hp = HProp.one none ∨ ∃ r, hp = HProp.one (some r))
        ∧ (rel.rtype ≠ "hasOne" → ∃ rs, hp = HProp.many rs)
        ∧ ((∀ child ∈ fetched,
              childKeyOf rel child ≠ parentKeyOf rel (rows.getD i [])) →
            hp = emptyAttachment rel.rtype) := by
    intro cleanRec hatt
    by_cases hone : rel.rtype = "hasOne"
    · subst hatt
      unfold attachRelation
      rw [if_pos hone]
      rw [List.getElem?_map, hrowsi]
      simp only [Option.map_some', Option.some_bind]
      rw [lookupProp_setProp]
      refine ⟨_, rfl, ?_, ?_, ?_⟩
      · intro _
        cases hfind : (mapFirstBy (childKeyOf rel) cleanRec fetched).find?
            (fun p => p.1 = parentKeyOf rel (rows.getD i [])) with
        | none => simp [hfind]
        | some p => simp [hfind]
      · intro hne
        exact absurd hone hne
      · intro hnomatch
        rw [mapFirstBy_find_none _ _ _ _ hnomatch]
        simp [emptyAttachment, hone]
    · subst hatt
      unfold attachRelation
      rw [if_neg hone]
      rw [List.getElem?_map, hrowsi]
      simp only [Option.map_some', Option.some_bind]
      rw [lookupProp_setProp]
      refine ⟨_, rfl, ?_, ?_, ?_⟩
      · intro h1
        exact absurd h1 hone
      · intro _
        cases hfind : (groupByKeyFn (childKeyOf rel) cleanRec fetched).find?
            (fun p => p.1 = parentKeyOf rel (rows.getD i [])) with
        | none => simp [hfind]
        | some p => simp [hfind]
      · intro hnomatch
        rw [groupByKeyFn_find_none _ _ _ _ hnomatch]
        simp [emptyAttachment, hone]
  have hempty : out = rows.map (fun row =>
      setProp rel.relationName (emptyAttachment rel.rtype) (toHRow row)) →
      ∃ hp, (out[i]?.bind (fun r => lookupProp r rel.relationName)) = some hp
        ∧ (rel.rtype = "hasOne" → hp = HProp.one none ∨ ∃ r, hp = HProp.one (some r))
        ∧ (rel.rtype ≠ "hasOne" → ∃ rs, hp = HProp.many rs)
        ∧ ((∀ child ∈ fetched,
              childKeyOf rel child ≠ parentKeyOf rel (rows.getD i [])) →
            hp = emptyAttachment rel.rtype) := by
    intro hmap
    subst hmap
    rw [List.getElem?_map, hrowsi]
    simp only [Option.map_some', Option.some_bind]
    rw [lookupProp_setProp]
    refine ⟨_, rfl, ?_, ?_, fun _ => rfl⟩
    · intro hone
      simp [emptyAttachment, hone]
    · intro hnot
      simp [emptyAttachment, if_neg hnot]
  unfold loadRelation at hout
  repeat' split at hout
  all_goals
    first
      | exact hempty (Except.ok.inj hout).symm
      | exact hmain _ (Except.ok.inj hout).symm
      | exact Except.noConfusion hout

theorem infix_joinSep {sep x : String} {l : List String} (hx : x ∈ l) :
    x.data <:+: (joinSep sep l).data := by
  induction l with
  | nil => cases hx
  | cons a rest ih =>
    cases rest with
    | nil =>
      simp only [List.mem_singleton] at hx
      subst hx
      exact List.infix_rfl
    | cons b rest2 =>
      rcases List.mem_cons.mp hx with rfl | hx'
      · rw [show joinSep sep (x :: b :: rest2) = x ++ sep ++ joinSep sep (b :: rest2)
          from rfl]
        simp only [String.data_append]
        exact ((x.data.prefix_append _).trans (List.prefix_append _ _)).isInfix
      · rw [show joinSep sep (a :: b :: rest2) = a ++ sep ++ joinSep sep (b :: rest2)
          from rfl]
        simp only [String.data_append]
        exact (ih hx').trans (List.suffix_append _ _).isInfix

theorem containsSub_of_infix {s pat : String} (h : pat.data <:+: s.data) :
    containsSub s pat = true :=
  decide_eq_true h

theorem containsSub_append_right {a b pat : String}
    (h : containsSub b pat = true) : containsSub (a ++ b) pat = true := by
  apply containsSub_of_infix
  rw [String.data_append]
  exact (of_decide_eq_true h).trans (List.suffix_append _ _).isInfix

theorem containsSub_append_left {a b pat : String}
    (h : containsSub a pat = true) : containsSub (a ++ b) pat = true := by
  apply containsSub_of_infix
  rw [String.data_append]
  exact (of_decide_eq_true h).trans (List.prefix_append _ _).isInfix

theorem noQ_joinSep {sep : String} (hsep : noQ sep = true) {l : List String}
    (h : ∀ x ∈ l, noQ x = true) : noQ (joinSep sep l) = true := by
  induction l with
  | nil => rfl
  | cons a rest ih =>
    cases rest with
    | nil => exact h a (List.mem_singleton_self a)
    | cons b rest2 =>
      exact noQ_append (noQ_append (h a (List.mem_cons_self a _)) hsep)
        (ih (fun x hx => h x (List.mem_cons_of_mem a hx)))

theorem countQ_clause_sum {β : Type} (f : β → String) (l : List β)
    (h : ∀ p ∈ l, countQ (f p) = 1) :
    ((l.map f).map countQ).sum = l.length := by
  rw [List.map_map]
  have hmap : l.map (countQ ∘ f) = l.map (fun _ => 1) :=
    List.map_congr_left (fun p hp => h p hp)
  rw [hmap, sum_map_one]

theorem countQ_updateClauses (l : List (String × Val))
    (hk : l.all (fun p => noQ p.1 && (!p.2.isRaw || noQ p.2.rawValue)) = true) :
    ((l.map (fun p =>
        if p.2.isRaw then p.1 ++ " = " ++ p.2.rawValue else p.1 ++ " = ?")).map
      countQ).sum = (l.filter (fun p => !p.2.isRaw)).length := by
  induction l with
  | nil => rfl
  | cons p rest ih =>
    simp only [List.all_cons, Bool.and_eq_true] at hk
    obtain ⟨⟨hk1, hk2⟩, hkrest⟩ := hk
    simp only [List.map_cons, List.sum_cons, List.filter_cons]
    by_cases hr : p.2.isRaw
    · rw [if_pos hr]
      have hraw : noQ p.2.rawValue = true := by
        rcases Bool.or_eq_true_iff.mp hk2 with h | h
        · rw [hr] at h
          cases h
        · exact h
      have hc : countQ (p.1 ++ " = " ++ p.2.rawValue) = 0 := by
        rw [countQ_append, countQ_append, countQ_of_noQ hk1, countQ_of_noQ hraw]
        decide
      rw [hc, ih hkrest]
      simp [hr]
    · rw [if_neg hr]
      have hc : countQ (p.1 ++ " = ?") = 1 := by
        rw [countQ_append, countQ_of_noQ hk1]
        decide
      rw [hc, ih hkrest]
      simp [hr]
      omega

theorem countQ_ite_eq {c : Prop} [Decidable c] {a b : String} {n : Nat}
    (ha : countQ a = n) (hb : countQ b = n) : countQ (if c then a else b) = n := by
  split <;> assumption

theorem sum_map_const {α : Type} (l : List α) (n : Nat) :
    (l.map (fun _ => n)).sum = l.length * n := by
  induction l with
  | nil => simp
  | cons a rest ih =>
    simp only [List.map_cons, List.sum_cons, List.length_cons, ih, Nat.succ_mul]
    omega

theorem flatMap_map_length {α β γ : Type} (l : List α) (cols : List β)
    (f : α → β → γ) :
    (l.flatMap (fun a => cols.map (f a))).length = l.length * cols.length := by
  induction l with
  | nil => simp
  | cons a rest ih =>
    simp only [List.flatMap_cons, List.length_append, List.length_map,
      List.length_cons, ih, Nat.succ_mul]
    omega

theorem buildWhereClause_count
    (compileSub : Query → Except String (String × List Val))
    (recQ : Query → Bool)
    (hsub : ∀ q sql ps, recQ q = true → compileSub q = .ok (sql, ps) →
      countQ sql = ps.length)
    (whereL : List WhereCond) (sql : String) (ps : List Val)
    (hall : whereL.all (noStrayCondStep recQ) = true)
    (hok : buildWhereClause compileSub whereL = .ok (sql, ps)) :
    countQ sql = ps.length := by
  unfold buildWhereClause at hok
  split at hok
  · injection hok with h1
    injection h1 with hs hp
    subst hs; subst hp
    decide
  · cases hrec : buildWhereGo compileSub [0] whereL with
    | error e => rw [hrec] at hok; cases hok
    | ok pair =>
      rw [hrec] at hok
      injection hok with h1
      injection h1 with hs hp
      subst hs; subst hp
      rw [countQ_append,
        buildWhereGo_count compileSub recQ hsub whereL [0] pair.1 pair.2 hall hrec,
        show countQ " WHERE " = 0 from by decide]
      omega

theorem buildAggsGo_count
    (compileSub : Query → Except String (String × List Val))
    (recQ : Query → Bool)
    (hsub : ∀ q sql ps, recQ q = true → compileSub q = .ok (sql, ps) →
      countQ sql = ps.length)
    (ot : Option String) :
    ∀ (specs : List AggregateSpec) (sels : List String) (ps : List Val),
      specs.all (fun spec =>
        noQ spec.aliasS &&
        (match aggSubQuery ot spec with
         | .ok sub => recQ sub
         | .error _ => true)) = true →
      buildAggsGo compileSub ot specs = .ok (sels, ps) →
      (sels.map countQ).sum = ps.length := by
  intro specs
  induction specs with
  | nil =>
    intro sels ps _ hok
    simp only [buildAggsGo] at hok
    injection hok with h1
    injection h1 with hs hp
    subst hs; subst hp
    rfl
  | cons spec rest ih =>
    intro sels ps hall hok
    simp only [List.all_cons, Bool.and_eq_true] at hall
    obtain ⟨⟨halias, hmatch⟩, hrest⟩ := hall
    cases hsubq : aggSubQuery ot spec with
    | error e =>
      simp only [buildAggsGo, hsubq] at hok
      cases hok
    | ok sub =>
      simp only [buildAggsGo, hsubq] at hok
      have hmatch' : recQ sub = true := by
        rw [hsubq] at hmatch
        exact hmatch
      cases hcomp : compileSub sub with
      | error e =>
        simp only [hcomp] at hok
        cases hok
      | ok spair =>
        simp only [hcomp] at hok
        cases hrec : buildAggsGo compileSub ot rest with
        | error e =>
          simp only [hrec] at hok
          cases hok
        | ok rpair =>
          simp only [hrec] at hok
          injection hok with h1
          injection h1 with hs hp
          subst hs; subst hp
          simp only [List.map_cons, List.sum_cons]
          rw [countQ_append, countQ_append, countQ_append, countQ_of_noQ halias,
            hsub sub spair.1 spair.2 hmatch' hcomp,
            ih rpair.1 rpair.2 hrest hrec,
            show countQ "(" = 0 from by decide,
            show countQ ") as " = 0 from by decide,
            List.length_append]
          omega

theorem buildHavingGo_count (h : List (String × String × Val × String)) :
    ∀ (b : Bool),
      h.all (fun e => noQ e.1 && noQ e.2.1 && noQ e.2.2.2) = true →
      countQ (buildHavingGo b h).1 = (buildHavingGo b h).2.length := by
  induction h with
  | nil =>
    intro b _
    cases b <;> rfl
  | cons e rest ih =>
    intro b hall
    obtain ⟨col, op, v, ty⟩ := e
    simp only [List.all_cons, Bool.and_eq_true] at hall
    obtain ⟨⟨⟨h1, h2⟩, h3⟩, hrest⟩ := hall
    have ihr := ih false hrest
    simp only [buildHavingGo]
    rw [countQ_append, countQ_append, countQ_append, countQ_append, countQ_append]
    have hconn : countQ (if b then "" else " " ++ ty ++ " ") = 0 :=
      countQ_ite (by decide)
        (by rw [countQ_append, countQ_append, countQ_of_noQ h3]; decide)
    rw [hconn, countQ_of_noQ h1, countQ_of_noQ h2,
      show countQ " " = 0 from by decide,
      show countQ " ?" = 1 from by decide,
      ihr, List.length_cons]
    omega

theorem buildHaving_count (h : List (String × String × Val × String))
    (hall : h.all (fun e => noQ e.1 && noQ e.2.1 && noQ e.2.2.2) = true) :
    countQ (buildHaving h).1 = (buildHaving h).2.length := by
  unfold buildHaving
  split
  · decide
  · show countQ (" HAVING " ++ (buildHavingGo true h).1) =
      (buildHavingGo true h).2.length
    rw [countQ_append, buildHavingGo_count h true hall,
      show countQ " HAVING " = 0 from by decide]
    omega

theorem singleInsertSql_count (tbl : String)
    (setV : Option (List (String × Val))) (sql : String) (ps : List Val)
    (htbl : noQ tbl = true)
    (hkeys : (match setV with
              | none => true
              | some s => s.all (fun p => noQ p.1)) = true)
    (hok : singleInsertSql tbl setV = .ok (sql, ps)) :
    countQ sql = ps.length := by
  cases setV with
  | none => exact Except.noConfusion hok
  | some set =>
    have hkeys' : set.all (fun p => noQ p.1) = true := hkeys
    simp only [singleInsertSql] at hok
    injection hok with h1
    injection h1 with hs hp
    subst hs; subst hp
    have hcols : noQ (joinSep ", " (set.map (fun p => p.1))) = true := by
      refine noQ_joinSep (by decide) ?_
      intro x hx
      rcases List.mem_map.mp hx with ⟨p, hp, rfl⟩
      exact List.all_eq_true.mp hkeys' p hp
    rw [countQ_append, countQ_append, countQ_append, countQ_append,
      countQ_append, countQ_append,
      countQ_of_noQ htbl, countQ_of_noQ hcols, countQ_placeholders,
      show countQ "INSERT INTO " = 0 from by decide,
      show countQ " (" = 0 from by decide,
      show countQ ") VALUES (" = 0 from by decide,
      show countQ ")" = 0 from by decide,
      List.length_map, List.length_map]
    omega

theorem buildSqlStep_count
    (compileSub : Query → Except String (String × List Val))
    (recQ : Query → Bool)
    (hsub : ∀ q sql ps, recQ q = true → compileSub q = .ok (sql, ps) →
      countQ sql = ps.length)
    (q : Query) (sql : String) (ps : List Val)
    (hq : noStrayQStep recQ q = true)
    (hok : buildSqlStep compileSub q = .ok (sql, ps)) :
    countQ sql = ps.length := by
  obtain ⟨qt, tb, sel, dist, jns, wl, gb, hv, ob, lim, off, sv, vv, uv, wth, ag, au⟩ := q
  simp only [noStrayQStep, Bool.and_eq_true] at hq
  obtain ⟨⟨⟨⟨⟨⟨⟨⟨⟨⟨⟨htb, hsel⟩, hjoins⟩, hwhere⟩, hgb⟩, hhav⟩, hob⟩, hlim⟩,
    hsetk⟩, hvalk⟩, hupsk⟩, haggs⟩ := hq
  simp only [buildSqlStep, selectClause1, Query.table, Query.qtype, Query.selectS,
    Query.distinctB, Query.joins, Query.whereL, Query.groupByL, Query.havingL,
    Query.orderByL, Query.limitV, Query.offsetV, Query.setV, Query.valuesV,
    Query.upsertUpdateV, Query.withL, Query.aggregatesL] at hok
  have htq : countQ (Option.getD tb "") = 0 := countQ_of_noQ htb
  split at hok
  · exact Except.noConfusion hok
  split at hok
  · -- SELECT
    cases hagg : buildAggsGo compileSub tb ag with
    | error e => rw [hagg] at hok; cases hok
    | ok apair =>
      rw [hagg] at hok
      cases hwc : buildWhereClause compileSub wl with
      | error e => rw [hwc] at hok; cases hok
      | ok wpair =>
        rw [hwc] at hok
        injection hok with h1
        injection h1 with hs hp
        subst hs
        subst hp
        have hwcnt : countQ wpair.1 = wpair.2.length :=
          buildWhereClause_count compileSub recQ hsub wl wpair.1 wpair.2 hwhere hwc
        have hhcnt : countQ (buildHaving hv).1 = (buildHaving hv).2.length :=
          buildHaving_count hv hhav
        have hacnt : (apair.1.map countQ).sum = apair.2.length :=
          buildAggsGo_count compileSub recQ hsub tb ag apair.1 apair.2 haggs hagg
        have hjq : countQ (joinsSql jns) = 0 := countQ_of_noQ hjoins
        have hgq : countQ (groupBySql gb) = 0 := countQ_of_noQ hgb
        have hoq : countQ (orderBySql ob) = 0 := countQ_of_noQ hob
        have hlq : countQ (limitSql lim off) = 0 := countQ_of_noQ hlim
        have hsq : countQ (if sel ≠ "*" ∧ ¬ wth.isEmpty then
            autoAddSelect (Option.getD tb "") wth sel else sel) = 0 :=
          countQ_of_noQ hsel
        have hdq : countQ (if dist = true then "DISTINCT " else "") = 0 :=
          countQ_ite (by decide) (by decide)
        have hJ : countQ (joinSep ", " apair.1) = apair.2.length := by
          rw [countQ_joinSep (by decide)]
          exact hacnt
        have l1 : countQ "SELECT " = 0 := by decide
        have l2 : countQ " FROM " = 0 := by decide
        have l3 : countQ ".*, " = 0 := by decide
        have l4 : countQ ", " = 0 := by decide
        cases ag with
        | nil =>
          simp only [buildAggsGo] at hagg
          injection hagg with h
          have ha1 : apair.2 = ([] : List Val) := by rw [← h]
          rw [if_pos (show (List.isEmpty ([] : List AggregateSpec)) = true from rfl)]
          simp only [countQ_append, List.length_append]
          rw [ha1]
          simp only [List.length_nil]
          omega
        | cons a0 arest =>
          rw [if_neg (show ¬((List.isEmpty (a0 :: arest)) = true) from by simp)]
          have hproj : countQ (if (if sel ≠ "*" ∧ ¬ wth.isEmpty then
                autoAddSelect (Option.getD tb "") wth sel else sel) = "*" then
              Option.getD tb "" ++ ".*, " ++ joinSep ", " apair.1
            else (if sel ≠ "*" ∧ ¬ wth.isEmpty then
                autoAddSelect (Option.getD tb "") wth sel else sel) ++ ", " ++
              joinSep ", " apair.1) = apair.2.length := by
            refine countQ_ite_eq ?_ ?_
            · rw [countQ_append, countQ_append, htq, hJ,
                show countQ ".*, " = 0 from by decide]
              omega
            · rw [countQ_append, countQ_append, hsq, hJ,
                show countQ ", " = 0 from by decide]
              omega
          simp only [countQ_append, List.length_append]
          rw [hproj]
          omega
  · -- INSERT
    cases vv with
    | none => exact singleInsertSql_count (Option.getD tb "") sv sql ps htb hsetk hok
    | some rows =>
      have hv' : rows.all (fun r => r.all (fun p => noQ p.1)) = true := hvalk
      split at hok
      · rename_i rows2 heq
        injection heq with heq2
        subst heq2
        split at hok
        · injection hok with h1
          injection h1 with hs hp
          subst hs
          subst hp
          have hcolsall : ∀ x ∈ bulkColumns rows, noQ x = true := by
            intro x hx
            cases rows with
            | nil => simp [bulkColumns] at hx
            | cons r0 rrest =>
              simp only [bulkColumns] at hx
              rcases List.mem_map.mp hx with ⟨p, hp, rfl⟩
              have hr0 : r0.all (fun p => noQ p.1) = true :=
                List.all_eq_true.mp hv' r0 (List.mem_cons_self r0 rrest)
              exact List.all_eq_true.mp hr0 p hp
          have hcolsq : countQ (joinSep ", " (bulkColumns rows)) = 0 :=
            countQ_of_noQ (noQ_joinSep (by decide) hcolsall)
          have hgrp : ∀ r : List (String × Val),
              countQ ("(" ++ joinSep ", " ((bulkColumns rows).map (fun _ => "?")) ++ ")")
                = (bulkColumns rows).length := by
            intro r
            rw [countQ_append, countQ_append, countQ_placeholders,
              show countQ "(" = 0 from by decide,
              show countQ ")" = 0 from by decide]
            omega
          have hph : countQ (joinSep ", " (rows.map (fun _ =>
              "(" ++ joinSep ", " ((bulkColumns rows).map (fun _ => "?")) ++ ")")))
              = rows.length * (bulkColumns rows).length := by
            rw [countQ_joinSep (by decide), List.map_map]
            have heq : (countQ ∘ fun (_ : List (String × Val)) =>
                "(" ++ joinSep ", " ((bulkColumns rows).map (fun _ => "?")) ++ ")") =
                fun (_ : List (String × Val)) => (bulkColumns rows).length :=
              funext (fun r => hgrp r)
            rw [heq, sum_map_const]
          have hlen : (rows.flatMap (fun row =>
              (bulkColumns rows).map (rowGet row))).length
              = rows.length * (bulkColumns rows).length :=
            flatMap_map_length rows (bulkColumns rows) rowGet
          have l1 : countQ "INSERT INTO " = 0 := by decide
          have l2 : countQ " (" = 0 := by decide
          have l3 : countQ ") VALUES " = 0 := by decide
          simp only [countQ_append]
          omega
        · exact singleInsertSql_count (Option.getD tb "") sv sql ps htb hsetk hok
      · rename_i heq
        exact Option.noConfusion heq
  · -- UPDATE
    cases sv with
    | none => exact Except.noConfusion hok
    | some set =>
      have hset' : set.all (fun p => noQ p.1) = true := hsetk
      split at hok
      · exact Except.noConfusion hok
      · rename_i set2 heq
        injection heq with heq2
        subst heq2
        cases hwc : buildWhereClause compileSub wl with
        | error e => rw [hwc] at hok; cases hok
        | ok wpair =>
          rw [hwc] at hok
          injection hok with h1
          injection h1 with hs hp
          subst hs
          subst hp
          have hwcnt : countQ wpair.1 = wpair.2.length :=
            buildWhereClause_count compileSub recQ hsub wl wpair.1 wpair.2 hwhere hwc
          have hscl : countQ (joinSep ", " (set.map (fun p => p.1 ++ " = ?")))
              = set.length := by
            rw [countQ_joinSep (by decide)]
            refine countQ_clause_sum _ set ?_
            intro p hp
            rw [countQ_append, countQ_of_noQ (List.all_eq_true.mp hset' p hp)]
            decide
          have l1 : countQ "UPDATE " = 0 := by decide
          have l2 : countQ " SET " = 0 := by decide
          simp only [countQ_append, List.length_append, List.length_map]
          omega
  · -- UPSERT
    cases sv with
    | none => exact Except.noConfusion hok
    | some set =>
      have hset' : set.all (fun p => noQ p.1) = true := hsetk
      split at hok
      · exact Except.noConfusion hok
      · rename_i set2 heq
        injection heq with heq2
        subst heq2
        split at hok
        · exact Except.noConfusion hok
        · injection hok with h1
          injection h1 with hs hp
          subst hs
          subst hp
          have hups' : (uv.getD []).all
              (fun p => noQ p.1 && (!p.2.isRaw || noQ p.2.rawValue)) = true := by
            cases uv with
            | none => rfl
            | some u => exact hupsk
          have hcols : countQ (joinSep ", " (set.map (fun p => p.1))) = 0 := by
            refine countQ_of_noQ (noQ_joinSep (by decide) ?_)
            intro x hx
            rcases List.mem_map.mp hx with ⟨p, hp, rfl⟩
            exact List.all_eq_true.mp hset' p hp
          have hphs : countQ (joinSep ", "
              ((set.map (fun p => p.1)).map (fun _ => "?"))) = set.length := by
            rw [countQ_placeholders, List.length_map]
          have hupd : countQ (joinSep ", " ((uv.getD []).map (fun p =>
              if p.2.isRaw then p.1 ++ " = " ++ p.2.rawValue else p.1 ++ " = ?")))
              = ((uv.getD []).filter (fun p => !p.2.isRaw)).length := by
            rw [countQ_joinSep (by decide)]
            exact countQ_updateClauses _ hups'
          have l1 : countQ "INSERT INTO " = 0 := by decide
          have l2 : countQ " (" = 0 := by decide
          have l3 : countQ ") VALUES (" = 0 := by decide
          have l4 : countQ ") ON DUPLICATE KEY UPDATE " = 0 := by decide
          simp only [countQ_append, List.length_append, List.length_map]
          omega
  · -- DELETE
    cases hwc : buildWhereClause compileSub wl with
    | error e => rw [hwc] at hok; cases hok
    | ok wpair =>
      rw [hwc] at hok
      injection hok with h1
      injection h1 with hs hp
      subst hs
      subst hp
      have hwcnt : countQ wpair.1 = wpair.2.length :=
        buildWhereClause_count compileSub recQ hsub wl wpair.1 wpair.2 hwhere hwc
      have l1 : countQ "DELETE FROM " = 0 := by decide
      simp only [countQ_append]
      omega
  · -- unknown type string
    injection hok with h1
    injection h1 with hs hp
    subst hs
    subst hp
    decide

/-- C1 (amended): the claimed placeholder/parameter balance holds for
every AST whose caller-supplied raw fragments are `?`-clean (each RAW
where-fragment carries exactly as many `?` as bound values, and no
other raw string — join fragment, projection, `RawSql` text — smuggles
a stray `?`): every successful compilation at any fuel emits exactly
as many `?` placeholders as parameters.  The unrestricted claim is
false — `c1_placeholder_count_cex` exhibits a public-API query
violating it. -/
theorem c1_placeholder_count_amended (fuel : Nat) (q : Query) (sql : String)
    (ps : List Val) (hwf : noStrayQF fuel q = true)
    (hok : buildSqlF fuel q = .ok (sql, ps)) :
    countQ sql = ps.length := by
  induction fuel generalizing q sql ps with
  | zero => exact Bool.noConfusion hwf
  | succ fuel ih =>
    exact buildSqlStep_count (buildSqlF fuel) (noStrayQF fuel)
      (fun q2 sql2 ps2 h1 h2 => ih q2 sql2 ps2 h1 h2) q sql ps hwf hok

theorem c1_placeholder_count_amended_witness :
    noStrayQF 32 c1RichQueryVal = true ∧
    buildSqlF 32 c1RichQueryVal = .ok (c1RichSql, c1RichParams) ∧
    countQ c1RichSql = c1RichParams.length :=
  ⟨by decide, by decide,
    c1_placeholder_count_amended 32 c1RichQueryVal c1RichSql c1RichParams
      (by decide) (by decide)⟩

/-- C10: in an UPDATE compilation every payload value — `RawSql`
included — is emitted as `col = ?` with the value pushed onto the
parameter list, whereas in an UPSERT's `ON DUPLICATE KEY UPDATE`
clause a `RawSql` value is rendered literally (`col = <raw text>`) and
contributes neither a placeholder nor a parameter. -/
theorem c10_update_vs_upsert_rawsql (fuel : Nat) (tbl : String)
    (htbl : tbl ≠ "") (htblq : noQ tbl = true)
    (setPairs upsPairs : List (String × Val))
    (hset : setPairs.all (fun p => noQ p.1) = true)
    (hsetne : setPairs ≠ [])
    (hupsne : upsPairs ≠ [])
    (hups : upsPairs.all (fun p => noQ p.1 && (!p.2.isRaw || noQ p.2.rawValue)) = true) :
    (∃ sql, buildSqlF (fuel + 1) (update (setTable tbl resetQuery) none setPairs)
        = .ok (sql, setPairs.map (fun p => p.2))
      ∧ countQ sql = setPairs.length
      ∧ ∀ p ∈ setPairs, containsSub sql (p.1 ++ " = ?") = true)
    ∧ (∃ q' sql',
        upsert (setTable tbl resetQuery) none setPairs (some upsPairs) = .ok q'
      ∧ buildSqlF (fuel + 1) q'
          = .ok (sql', setPairs.map (fun p => p.2)
              ++ (upsPairs.filter (fun p => !p.2.isRaw)).map (fun p => p.2))
      ∧ countQ sql' = setPairs.length + (upsPairs.filter (fun p => !p.2.isRaw)).length
      ∧ ∀ c r, (c, Val.vRaw r) ∈ upsPairs →
          containsSub sql' (c ++ " = " ++ r) = true) := by
  have hsetq : ∀ p ∈ setPairs, countQ (p.1 ++ " = ?") = 1 := by
    intro p hp
    rw [List.all_eq_true] at hset
    rw [countQ_append, countQ_of_noQ (hset p hp)]
    decide
  have hupsE : upsPairs.isEmpty = false := by
    cases upsPairs with
    | nil => exact absurd rfl hupsne
    | cons a l => rfl
  have hsetE : setPairs.isEmpty = false := by
    cases setPairs with
    | nil => exact absurd rfl hsetne
    | cons a l => rfl
  constructor
  · refine ⟨"UPDATE " ++ tbl ++ " SET " ++
      joinSep ", " (setPairs.map (fun p => p.1 ++ " = ?")) ++ "", ?_, ?_, ?_⟩
    · show buildSqlStep (buildSqlF fuel)
        (update (setTable tbl resetQuery) none setPairs) = _
      unfold buildSqlStep
      rw [show (update (setTable tbl resetQuery) none setPairs).table.getD "" = tbl
        from rfl]
      rw [if_neg htbl]
      show Except.ok (_, setPairs.map (fun p => p.2) ++ []) = _
      rw [List.append_nil]
    · simp only [countQ_append]
      rw [countQ_of_noQ htblq, countQ_joinSep (by decide),
        countQ_clause_sum _ _ hsetq,
        show countQ "UPDATE " = 0 from by decide,
        show countQ " SET " = 0 from by decide,
        show countQ "" = 0 from by decide]
      omega
    · intro p hp
      apply containsSub_append_left
      apply containsSub_append_right
      exact containsSub_of_infix (infix_joinSep (List.mem_map_of_mem _ hp))
  · have hq : upsert (setTable tbl resetQuery) none setPairs (some upsPairs) =
        .ok (setUpsertUpdate (some upsPairs)
          (setSet (some setPairs) (setType "UPSERT" (setTable tbl resetQuery)))) := by
      unfold upsert
      simp only [hsetE, hupsE, Bool.false_eq_true, if_false]
    refine ⟨_, "INSERT INTO " ++ tbl ++ " (" ++
      joinSep ", " (setPairs.map (fun p => p.1)) ++ ") VALUES (" ++
      joinSep ", " ((setPairs.map (fun p => p.1)).map (fun _ => "?")) ++
      ") ON DUPLICATE KEY UPDATE " ++
      joinSep ", " (upsPairs.map (fun p =>
        if p.2.isRaw then p.1 ++ " = " ++ p.2.rawValue else p.1 ++ " = ?")),
      hq, ?_, ?_, ?_⟩
    · show buildSqlStep (buildSqlF fuel) _ = _
      unfold buildSqlStep
      rw [show (setUpsertUpdate (some upsPairs)
          (setSet (some setPairs) (setType "UPSERT" (setTable tbl resetQuery)))).table.getD ""
          = tbl from rfl]
      rw [if_neg htbl]
      show (if upsPairs.isEmpty = true then _ else _) = _
      simp only [hupsE, Bool.false_eq_true, if_false]
      rfl
    · have hcols : noQ (joinSep ", " (setPairs.map (fun p => p.1))) = true := by
        apply noQ_joinSep (by decide)
        intro x hx
        rcases List.mem_map.mp hx with ⟨p, hp, rfl⟩
        rw [List.all_eq_true] at hset
        exact hset p hp
      simp only [countQ_append]
      rw [countQ_of_noQ htblq, countQ_of_noQ hcols, countQ_placeholders,
        countQ_joinSep (by decide), countQ_updateClauses upsPairs hups,
        show countQ "INSERT INTO " = 0 from by decide,
        show countQ " (" = 0 from by decide,
        show countQ ") VALUES (" = 0 from by decide,
        show countQ ") ON DUPLICATE KEY UPDATE " = 0 from by decide,
        List.length_map]
      omega
    · intro c r hcr
      apply containsSub_append_right
      apply containsSub_of_infix
      have hmem : (c ++ " = " ++ r) ∈ upsPairs.map (fun p =>
          if p.2.isRaw then p.1 ++ " = " ++ p.2.rawValue else p.1 ++ " = ?") := by
        refine List.mem_map.mpr ⟨(c, Val.vRaw r), hcr, ?_⟩
        simp [Val.isRaw, Val.rawValue]
      exact infix_joinSep hmem

theorem c10_update_vs_upsert_rawsql_witness :
    (∃ sql, buildSqlF 1 (update (setTable "users" resetQuery) none
        [("a", Val.vRaw "b + 1")])
        = .ok (sql, [("a", Val.vRaw "b + 1")].map (fun p => p.2))
      ∧ countQ sql = [("a", Val.vRaw "b + 1")].length
      ∧ ∀ p ∈ [("a", Val.vRaw "b + 1")], containsSub sql (p.1 ++ " = ?") = true)
    ∧ (∃ q' sql',
        upsert (setTable "users" resetQuery) none [("a", Val.vRaw "b + 1")]
          (some [("c", Val.vRaw "c + 1"), ("d", Val.vInt 2)]) = .ok q'
      ∧ buildSqlF 1 q'
          = .ok (sql', [("a", Val.vRaw "b + 1")].map (fun p => p.2)
              ++ ([("c", Val.vRaw "c + 1"), ("d", Val.vInt 2)].filter
                    (fun p => !p.2.isRaw)).map (fun p => p.2))
      ∧ countQ sql' = [("a", Val.vRaw "b + 1")].length
          + ([("c", Val.vRaw "c + 1"), ("d", Val.vInt 2)].filter
              (fun p => !p.2.isRaw)).length
      ∧ ∀ c r, (c, Val.vRaw r) ∈ [("c", Val.vRaw "c + 1"), ("d", Val.vInt 2)] →
          containsSub sql' (c ++ " = " ++ r) = true) :=
  c10_update_vs_upsert_rawsql 0 "users" (by decide) (by decide)
    [("a", Val.vRaw "b + 1")] [("c", Val.vRaw "c + 1"), ("d", Val.vInt 2)]
    (by decide) (by decide) (by decide) (by decide)

theorem c5_relation_property_witness :
    loadRelation c5Rel [] c5Parents c5Kids = Except.ok c5Out
    ∧ (0 : Nat) < c5Parents.length
    ∧ ∃ hp, (c5Out[0]?.bind (fun r => lookupProp r c5Rel.relationName)) = some hp
        ∧ (c5Rel.rtype = "hasOne" → hp = HProp.one none ∨ ∃ r, hp = HProp.one (some r))
        ∧ (c5Rel.rtype ≠ "hasOne" → ∃ rs, hp = HProp.many rs)
        ∧ ((∀ child ∈ c5Kids,
              childKeyOf c5Rel child ≠ parentKeyOf c5Rel (c5Parents.getD 0 [])) →
            hp = emptyAttachment c5Rel.rtype) :=
  ⟨by decide, by decide,
    c5_relation_property_always_set c5Rel [] c5Parents c5Kids c5Out
      (by decide) 0 (by decide)⟩

theorem c7_chunk_exact_multiple_witness :
    (0 : Nat) < 2 ∧ c7Dataset.length = 2 * 2
    ∧ ((runChunkLoop 2 cbTrue c7Dataset).2 =
        (List.range 2).map (fun p => (chunkFetch c7Dataset 2 p, p))
      ∧ (∀ c ∈ (runChunkLoop 2 cbTrue c7Dataset).2, c.1.length = 2)
      ∧ (runChunkLoop 2 cbTrue c7Dataset).1.length = 2 + 1
      ∧ (runChunkLoop 2 cbTrue c7Dataset).1.getLast? = some ([] : List Row)) :=
  ⟨by decide, by decide,
    c7_chunk_exact_multiple 2 2 (by decide) (by decide) c7Dataset (by decide)
      cbTrue (fun _ _ => rfl)⟩

end LiteORM
